import Mathlib

/-!
Codec registry and SDP attribute parsing of the WebRTC media core

A shallow embedding of `mediaengine.go`, `rtcrtpcodecparameters.go`,
`rtcrtpparameters.go` and `sdputils.go`.

Modelling conventions
* A Go `string` is a list of characters (`Str`).  SDP attribute lines are
  single-line ASCII text, so bytes and code points coincide.
* A Go `map[string]string` is an association list with pairwise distinct
  keys (`StrMap`).  A nil map reads like the empty map (length 0, no keys),
  and the code never writes to a nil map, so both are the empty `StrMap`.
* Machine integers are naturals; conversions such as `uint8(x)` are written
  `x % 2^8`.
* A Go `(value, error)` result is `Except Err value`.
* Pointers to codecs are modelled by the codec values themselves.
-/

set_option autoImplicit false

namespace Webrtc

/-! ## Strings -/

/-- Go strings, as lists of characters. -/
abbrev Str := List Char

/-- Go `strings.Index(s, sep)` for a one-character separator: the position of
the first occurrence of `sep` in `s`, or `-1` when there is none. -/
def stringsIndex (s : Str) (sep : Char) : Int :=
  match s with
  | [] => -1
  | c :: cs =>
    if c = sep then 0
    else
      let i := stringsIndex cs sep
      if i < 0 then -1 else i + 1

/-- Go slice expression `s[:i]`. -/
def sliceTo (s : Str) (i : Int) : Str := s.take i.toNat

/-- Go slice expression `s[i:]`. -/
def sliceFrom (s : Str) (i : Int) : Str := s.drop i.toNat

/-- Go `strings.Split(s, sep)` for a one-character separator.  The result is
never empty: a string without separator gives the one-element list. -/
def stringsSplit (s : Str) (sep : Char) : List Str :=
  match s with
  | [] => [[]]
  | c :: cs =>
    if c = sep then [] :: stringsSplit cs sep
    else
      match stringsSplit cs sep with
      | [] => [[c]]
      | p :: ps => (c :: p) :: ps

/-- Go `strings.HasPrefix(s, prefix)`. -/
def stringsHasPrefix (s pre : Str) : Bool := pre.isPrefixOf s

/-- Go `unicode.IsSpace`: the Unicode White_Space code points. -/
def unicodeIsSpace (c : Char) : Bool :=
  let n := c.toNat
  (9 ≤ n && n ≤ 13) || n = 32 || n = 0x85 || n = 0xA0 || n = 0x1680 ||
  (0x2000 ≤ n && n ≤ 0x200A) || n = 0x2028 || n = 0x2029 || n = 0x202F ||
  n = 0x205F || n = 0x3000

/-- Go `strings.TrimSpace`: removes leading and trailing white space. -/
def stringsTrimSpace (s : Str) : Str :=
  ((s.dropWhile unicodeIsSpace).reverse.dropWhile unicodeIsSpace).reverse

/-- Value of a decimal digit, if the character is one. -/
def digitValue (c : Char) : Option Nat :=
  if '0'.toNat ≤ c.toNat ∧ c.toNat ≤ '9'.toNat then some (c.toNat - '0'.toNat) else none

/-- Left-to-right accumulation of decimal digits; `none` on a non-digit. -/
def parseDigits (acc : Nat) (s : Str) : Option Nat :=
  match s with
  | [] => some acc
  | c :: cs =>
    match digitValue c with
    | none => none
    | some d => parseDigits (acc * 10 + d) cs

/-- Go `strconv.ParseUint(s, 10, bitSize)`: succeeds exactly on a non-empty
string of decimal digits whose value fits `bitSize` bits. -/
def strconvParseUint (s : Str) (bitSize : Nat) : Option Nat :=
  match s with
  | [] => none
  | _ :: _ =>
    match parseDigits 0 s with
    | none => none
    | some n => if n < 2 ^ bitSize then some n else none

/-- Go `fmt.Sprintf("%d", n)` for an unsigned integer. -/
def formatUint (n : Nat) : Str := Nat.toDigits 10 n

/-! ## String maps -/

/-- Go `map[string]string`: entries with pairwise distinct keys. -/
structure StrMap where
  entries : List (Str × Str)
  nodup : (entries.map Prod.fst).Nodup
  deriving DecidableEq

namespace StrMap

/-- Go `make(map[string]string)`; also the reading of a nil map. -/
def empty : StrMap := ⟨[], List.nodup_nil⟩

/-- Go `len(m)`. -/
def len (m : StrMap) : Nat := m.entries.length

/-- Go `v, ok := m[k]`. -/
def get (m : StrMap) (k : Str) : Option Str :=
  (m.entries.find? (fun e => decide (e.1 = k))).map Prod.snd

end StrMap

/-- Go `m[k] = v`: the entry for `k` is replaced or created. -/
def StrMap.set (m : StrMap) (k v : Str) : StrMap :=
  ⟨(k, v) :: m.entries.filter (fun e => decide (e.1 ≠ k)), by
    rw [List.map_cons, List.nodup_cons]
    constructor
    · intro hmem
      obtain ⟨e, he, hk⟩ := List.mem_map.1 hmem
      have := (List.mem_filter.1 he).2
      simp at this
      exact this hk
    · exact m.nodup.sublist ((List.filter_sublist m.entries).map Prod.fst)⟩

/-! ## Errors -/

/-- The error values built by the code; each `fmt.Errorf` site has its own
constructor, carrying the formatted arguments. -/
inductive Err where
  /-- `ErrCodecNotFound` -/
  | ErrCodecNotFound
  /-- "failed to parse FMTP: %s: %v" -/
  | failedToParseFMTP (other : Str) (err : Err)
  /-- "attribute to short: %s" -/
  | attributeTooShort (value : Str)
  /-- "invalid parameter: %s" -/
  | invalidParameter (param : Str)
  /-- "rtcp-fb attribute to short: %s" -/
  | rtcpFbAttributeTooShort (value : Str)
  /-- "extmap attribute to short: %s" -/
  | extmapAttributeTooShort (value : Str)
  /-- "invalid id: %s" -/
  | invalidId (idStr : Str)
  /-- "rtpmap attribute to short: %s" -/
  | rtpmapAttributeTooShort (value : Str)
  /-- "invalid payload type: %s" -/
  | invalidPayloadType (payloadTypeStr : Str)
  /-- "invalid codec: %s" -/
  | invalidCodec (codecStr : Str)
  /-- "invalid clockrate: %s" -/
  | invalidClockrate (clockrateStr : Str)
  /-- "invalid channels: %s" -/
  | invalidChannels (channelsStr : Str)
  /-- "ssrc media attribute to short: %s" -/
  | ssrcAttributeTooShort (value : Str)
  /-- "failed to parse ssrc: %s" -/
  | failedToParseSsrc (ssrcStr : Str)
  /-- "failed to parse ssrcs: %v" -/
  | failedToParseSsrcs (err : Err)
  /-- "no ssrc found in media description" -/
  | noSsrcFound
  /-- "failed to parse codec: %v" -/
  | failedToParseCodec (err : Err)
  /-- "failed to parse header extensions: %v" -/
  | failedToParseHeaderExtensions (err : Err)
  /-- "failed to parse fmtp: %v" -/
  | failedToParseFmtp (err : Err)
  /-- "failed to parse rtcp feedback: %v" -/
  | failedToParseRtcpFeedback (err : Err)
  /-- "payload type %d not found" -/
  | payloadTypeNotFound (payloadType : Nat)
  /-- "Invalid state change in RTCRtpTransceiver.setSending" -/
  | invalidStateChange
  /-- An error handed back by the transport collaborator, identified by a number. -/
  | transport (code : Nat)
  /-- "failed to open RTP ReadStream %d: %v" -/
  | failedToOpenRTPReadStream (ssrc : Nat) (err : Err)
  /-- "failed to open RTCP ReadStream %d: %v" -/
  | failedToOpenRTCPReadStream (ssrc : Nat) (err : Err)
  /-- "failed to find codec parameters: %v" -/
  | failedToFindCodecParameters (err : Err)
  /-- "codec %s is not registered" -/
  | codecNotRegistered (codecParams : Str)
  /-- "RTCRtpReceiver has already been closed" -/
  | receiverAlreadyClosed
  deriving DecidableEq, Repr

/-! ## Data model -/

/-- The type `RTCRtpCodecType`, a Go `int`. -/
abbrev RTCRtpCodecType := Int

/-- The constant `RTCRtpCodecTypeAudio` (`iota + 1`). -/
def RTCRtpCodecTypeAudio : RTCRtpCodecType := 1

/-- The constant `RTCRtpCodecTypeVideo`. -/
def RTCRtpCodecTypeVideo : RTCRtpCodecType := 2

/-- The struct `RTCRtpCodecCapability`. -/
structure RTCRtpCodecCapability where
  MimeType : Str
  ClockRate : Nat
  Channels : Nat
  SdpFmtpLine : Str
  deriving DecidableEq, Repr

/-- The struct `RTCRtpCodec`; the embedded capability is the parent structure,
the field `Type` is spelled `Typ`, and the `Payloader` interface value is
identified by a number. -/
structure RTCRtpCodec extends RTCRtpCodecCapability where
  Typ : RTCRtpCodecType
  Name : Str
  PayloadType : Nat
  Payloader : Nat
  deriving DecidableEq, Repr

/-- The struct `RTCRtcpFeedback` (field `Type` spelled `Typ`). -/
structure RTCRtcpFeedback where
  Typ : Str
  Parameter : Str
  deriving DecidableEq, Repr

/-- The struct `RTCRtpCodecParameters`. -/
structure RTCRtpCodecParameters where
  Name : Str
  MimeType : Str
  PayloadType : Nat
  ClockRate : Nat
  Maxptime : Nat
  Ptime : Nat
  Channels : Nat
  RtcpFeedback : List RTCRtcpFeedback
  Parameters : StrMap
  deriving DecidableEq

/-- The struct `RTCRtpHeaderExtensionParameters`. -/
structure RTCRtpHeaderExtensionParameters where
  ID : Nat
  direction : Str
  URI : Str
  deriving DecidableEq, Repr

/-- The struct `RTCRtpParameters` (the `Rtcp` field is never touched by the
parser and is left out). -/
structure RTCRtpParameters where
  Codecs : List RTCRtpCodecParameters
  HeaderExtensions : List RTCRtpHeaderExtensionParameters
  deriving DecidableEq

/-- The struct `sdp.Attribute`. -/
structure Attribute where
  Key : Str
  Value : Str
  deriving DecidableEq, Repr

/-- The struct `sdp.MediaName`, reduced to the field the parser reads. -/
structure MediaName where
  Formats : List Str
  deriving DecidableEq, Repr

/-- The struct `sdp.MediaDescription`, reduced to the fields the parser reads. -/
structure MediaDescription where
  MediaName : MediaName
  Attributes : List Attribute
  deriving DecidableEq, Repr

/-- The struct `MediaEngine`. -/
structure MediaEngine where
  codecs : List RTCRtpCodec
  deriving DecidableEq, Repr

/-! ## mediaengine.go -/

/-- The method `MediaEngine.RegisterCodec`: the new engine state and the
returned payload type. -/
def RegisterCodec (m : MediaEngine) (codec : RTCRtpCodec) : MediaEngine × Nat :=
  ({ m with codecs := m.codecs ++ [codec] }, codec.PayloadType)

/-- The loop of `MediaEngine.getCodec` over the remaining codecs. -/
def getCodecLoop (codecs : List RTCRtpCodec) (payloadType : Nat) : Except Err RTCRtpCodec :=
  match codecs with
  | [] => .error .ErrCodecNotFound
  | codec :: rest =>
    if codec.PayloadType = payloadType then .ok codec
    else getCodecLoop rest payloadType

/-- The method `MediaEngine.getCodec`. -/
def getCodec (m : MediaEngine) (payloadType : Nat) : Except Err RTCRtpCodec :=
  getCodecLoop m.codecs payloadType

/-- The method `RTCRtpCodecType.String`; the default branch is the text of
`ErrUnknownType`, which is declared outside these files and passed in. -/
def RTCRtpCodecType.String (t : RTCRtpCodecType) (unknownType : Str) : Str :=
  if t = RTCRtpCodecTypeAudio then "audio".toList
  else if t = RTCRtpCodecTypeVideo then "video".toList
  else unknownType

/-- The function `NewRTCRtpCodec`; `unknownType` is the text of
`ErrUnknownType`, used in the mime type of a codec that is neither audio nor
video. -/
def NewRTCRtpCodec (unknownType : Str) (codecType : RTCRtpCodecType) (name : Str)
    (clockrate channels : Nat) (fmtp : Str) (payloadType : Nat) (payloader : Nat) :
    RTCRtpCodec :=
  { MimeType := codecType.String unknownType ++ ['/'] ++ name,
    ClockRate := clockrate,
    Channels := channels,
    SdpFmtpLine := fmtp,
    PayloadType := payloadType,
    Payloader := payloader,
    Typ := codecType,
    Name := name }

/-- The function `NewRTCRtpOpusCodec`; its payloader is number 2.  The type
is audio, so the text of `ErrUnknownType` is never used. -/
def NewRTCRtpOpusCodec (payloadType clockrate channels : Nat) : RTCRtpCodec :=
  NewRTCRtpCodec [] RTCRtpCodecTypeAudio "opus".toList clockrate channels
    "minptime=10;useinbandfec=1".toList payloadType 2

/-- The function `NewRTCRtpVP8Codec`; its payloader is number 3. -/
def NewRTCRtpVP8Codec (payloadType clockrate : Nat) : RTCRtpCodec :=
  NewRTCRtpCodec [] RTCRtpCodecTypeVideo "VP8".toList clockrate 0 [] payloadType 3

/-- The function `NewRTCRtpH264Codec`; its payloader is number 4. -/
def NewRTCRtpH264Codec (payloadType clockrate : Nat) : RTCRtpCodec :=
  NewRTCRtpCodec [] RTCRtpCodecTypeVideo "H264".toList clockrate 0
    "level-asymmetry-allowed=1;packetization-mode=1;profile-level-id=42001f".toList
    payloadType 4

/-! ## sdputils.go: format parameters -/

/-- The loop of `sdpParseFmtpString` over the remaining segments, with the
map built so far. -/
def sdpParseFmtpStringLoop (params : List Str) (res : StrMap) : Except Err StrMap :=
  match params with
  | [] => .ok res
  | param :: rest =>
    if (stringsTrimSpace param).length = 0 then sdpParseFmtpStringLoop rest res
    else
      match stringsSplit param '=' with
      | p0 :: p1 :: _ =>
        let k := stringsTrimSpace p0
        let v := stringsTrimSpace p1
        sdpParseFmtpStringLoop rest (res.set k v)
      | _ => .error (.invalidParameter param)

/-- The function `sdpParseFmtpString`. -/
def sdpParseFmtpString (paramsStr : Str) : Except Err StrMap :=
  sdpParseFmtpStringLoop (stringsSplit paramsStr ';') StrMap.empty

/-- The function `sdpParseFmtp`. -/
def sdpParseFmtp (a : Attribute) : Except Err StrMap :=
  let sp := stringsIndex a.Value ' '
  if sp < 1 then .error (.attributeTooShort a.Value)
  else
    let paramsStr := sliceFrom a.Value (sp + 1)
    sdpParseFmtpString paramsStr

/-! ## rtcrtpcodecparameters.go -/

/-- The function `cmpMapStringString`. -/
def cmpMapStringString (a b : StrMap) : Bool :=
  if a.len ≠ b.len then false
  else
    a.entries.all (fun e =>
      match b.get e.1 with
      | none => false
      | some vb => decide (vb = e.2))

/-- The method `RTCRtpCodecParameters.equalFMTP`. -/
def equalFMTP (p : RTCRtpCodecParameters) (other : Str) : Except Err Bool :=
  match sdpParseFmtpString other with
  | .error err => .error (.failedToParseFMTP other err)
  | .ok b => .ok (cmpMapStringString p.Parameters b)

/-- The method `RTCRtpCodecParameters.String`. -/
def RTCRtpCodecParameters.String (p : RTCRtpCodecParameters) : Str :=
  formatUint p.PayloadType ++ [' '] ++ p.Name ++ ['/'] ++ formatUint p.ClockRate ++ ['/'] ++
    formatUint p.Channels

/-- The loop of `MediaEngine.getCodecSDP` over the remaining codecs. -/
def getCodecSDPLoop (codecs : List RTCRtpCodec) (codecParams : RTCRtpCodecParameters) :
    Except Err RTCRtpCodec :=
  match codecs with
  | [] => .error .ErrCodecNotFound
  | codec :: rest =>
    if codec.Name = codecParams.Name ∧ codec.ClockRate = codecParams.ClockRate ∧
        codec.Channels = codecParams.Channels then
      match equalFMTP codecParams codec.SdpFmtpLine with
      | .error _ => getCodecSDPLoop rest codecParams
      | .ok ok => if !ok then getCodecSDPLoop rest codecParams else .ok codec
    else getCodecSDPLoop rest codecParams

/-- The method `MediaEngine.getCodecSDP`. -/
def getCodecSDP (m : MediaEngine) (codecParams : RTCRtpCodecParameters) :
    Except Err RTCRtpCodec :=
  getCodecSDPLoop m.codecs codecParams

/-! ## sdputils.go: attribute parsers -/

/-- The function `sdpParseRtcpFeedback`. -/
def sdpParseRtcpFeedback (a : Attribute) : Except Err RTCRtcpFeedback :=
  let sp := stringsIndex a.Value ' '
  if sp < 1 then .error (.rtcpFbAttributeTooShort a.Value)
  else
    let fbStr := sliceFrom a.Value (sp + 1)
    let sp2 := stringsIndex fbStr ' '
    if sp2 > 0 then
      .ok { Typ := sliceTo fbStr sp2, Parameter := sliceFrom fbStr (sp2 + 1) }
    else
      .ok { Typ := fbStr, Parameter := [] }

/-- The function `sdpParseExtmap`. -/
def sdpParseExtmap (a : Attribute) : Except Err RTCRtpHeaderExtensionParameters :=
  let sp := stringsIndex a.Value ' '
  if sp < 1 then .error (.extmapAttributeTooShort a.Value)
  else
    let idParts := stringsSplit (sliceTo a.Value sp) '/'
    let idStr := idParts.getD 0 []
    match strconvParseUint idStr 16 with
    | none => .error (.invalidId idStr)
    | some id =>
      let direction := if idParts.length > 1 then idParts.getD 1 [] else "sendrecv".toList
      let uri := sliceFrom a.Value (sp + 1)
      .ok { ID := id % 2 ^ 16, direction := direction, URI := uri }

/-- The function `sdpParseRtpMap`.  The match on `parts` is the test
`len(parts) < 2`; the match on the remaining parts is the test
`len(parts) == 3`. -/
def sdpParseRtpMap (a : Attribute) : Except Err RTCRtpCodecParameters :=
  let sp := stringsIndex a.Value ' '
  if sp < 1 then .error (.rtpmapAttributeTooShort a.Value)
  else
    let payloadTypeStr := sliceTo a.Value sp
    match strconvParseUint payloadTypeStr 8 with
    | none => .error (.invalidPayloadType payloadTypeStr)
    | some payloadTypeRaw =>
      let codecStr := sliceFrom a.Value (sp + 1)
      match stringsSplit codecStr '/' with
      | name :: clockrateStr :: more =>
        match strconvParseUint clockrateStr 32 with
        | none => .error (.invalidClockrate clockrateStr)
        | some clockrate =>
          let mk := fun (channels : Nat) =>
            ({ Name := name, MimeType := [], PayloadType := payloadTypeRaw % 2 ^ 8,
               ClockRate := clockrate % 2 ^ 32, Maxptime := 0, Ptime := 0,
               Channels := channels % 2 ^ 32, RtcpFeedback := [],
               Parameters := StrMap.empty } : RTCRtpCodecParameters)
          match more with
          | [channelsStr] =>
            match strconvParseUint channelsStr 32 with
            | none => .error (.invalidChannels channelsStr)
            | some channels => .ok (mk channels)
          | _ => .ok (mk 0)
      | _ => .error (.invalidCodec codecStr)

/-- The loop of `sdpMatchAttributePrefixFunc` over the remaining attributes.
The parser `p` is a closure that updates captured state; here the state is
passed explicitly. -/
def sdpMatchAttributePrefixFuncLoop {σ : Type} (attrs : List Attribute) (key pfx : Str)
    (p : σ → Attribute → Except Err σ) (st : σ) : Except Err σ :=
  match attrs with
  | [] => .ok st
  | a :: rest =>
    if a.Key ≠ key ∨ !stringsHasPrefix a.Value pfx then
      sdpMatchAttributePrefixFuncLoop rest key pfx p st
    else
      match p st a with
      | .error err => .error err
      | .ok st2 => sdpMatchAttributePrefixFuncLoop rest key pfx p st2

/-- The function `sdpMatchAttributePrefixFunc`. -/
def sdpMatchAttributePrefixFunc {σ : Type} (d : MediaDescription) (key pfx : Str)
    (p : σ → Attribute → Except Err σ) (st : σ) : Except Err σ :=
  sdpMatchAttributePrefixFuncLoop d.Attributes key pfx p st

/-- The closure built by `sdpRtpFmtpParser`, acting on the codec it captures. -/
def sdpRtpFmtpParser (_d : MediaDescription) (p : RTCRtpCodecParameters) (a : Attribute) :
    Except Err RTCRtpCodecParameters :=
  match sdpParseFmtp a with
  | .error err => .error err
  | .ok params => .ok { p with Parameters := params }

/-- The closure built by `sdpRtpRtcpFeedbackParser`, acting on the codec it
captures. -/
def sdpRtpRtcpFeedbackParser (_d : MediaDescription) (p : RTCRtpCodecParameters)
    (a : Attribute) : Except Err RTCRtpCodecParameters :=
  match sdpParseRtcpFeedback a with
  | .error err => .error err
  | .ok fb => .ok { p with RtcpFeedback := p.RtcpFeedback ++ [fb] }

/-- The closure built by `sdpExtmapParser`, acting on the parameters it
captures. -/
def sdpExtmapParser (_d : MediaDescription) (p : RTCRtpParameters) (a : Attribute) :
    Except Err RTCRtpParameters :=
  match sdpParseExtmap a with
  | .error err => .error err
  | .ok ext => .ok { p with HeaderExtensions := p.HeaderExtensions ++ [ext] }

/-- The closure built by `sdpRtpCodecParser`, acting on the parameters it
captures. -/
def sdpRtpCodecParser (d : MediaDescription) (p : RTCRtpParameters) (a : Attribute) :
    Except Err RTCRtpParameters :=
  match sdpParseRtpMap a with
  | .error err => .error err
  | .ok codec =>
    let pfx := formatUint codec.PayloadType ++ [' ']
    match sdpMatchAttributePrefixFunc d "fmtp".toList pfx (sdpRtpFmtpParser d) codec with
    | .error err => .error (.failedToParseFmtp err)
    | .ok codec1 =>
      let pfx2 := formatUint codec1.PayloadType ++ [' ']
      match sdpMatchAttributePrefixFunc d "rtcp-fb".toList pfx2
          (sdpRtpRtcpFeedbackParser d) codec1 with
      | .error err => .error (.failedToParseRtcpFeedback err)
      | .ok codec2 => .ok { p with Codecs := p.Codecs ++ [codec2] }

/-- The loop over `d.MediaName.Formats` in `sdpParseRtpParameters`. -/
def sdpParseRtpParametersFormats (d : MediaDescription) (formats : List Str)
    (res : RTCRtpParameters) : Except Err RTCRtpParameters :=
  match formats with
  | [] => .ok res
  | format :: rest =>
    match sdpMatchAttributePrefixFunc d "rtpmap".toList (format ++ [' '])
        (sdpRtpCodecParser d) res with
    | .error err => .error (.failedToParseCodec err)
    | .ok res2 => sdpParseRtpParametersFormats d rest res2

/-- The function `sdpParseRtpParameters`.  Both components of the Go result
are kept: the parameters and the error (`none` for `nil`). -/
def sdpParseRtpParameters (d : MediaDescription) : RTCRtpParameters × Option Err :=
  let res : RTCRtpParameters := { Codecs := [], HeaderExtensions := [] }
  match sdpParseRtpParametersFormats d d.MediaName.Formats res with
  | .error err => ({ Codecs := [], HeaderExtensions := [] }, some err)
  | .ok res1 =>
    match sdpMatchAttributePrefixFunc d "extmap".toList [] (sdpExtmapParser d) res1 with
    | .error err =>
      ({ Codecs := [], HeaderExtensions := [] }, some (.failedToParseHeaderExtensions err))
    | .ok res2 => (res2, none)

/-! ## sdputils.go: synchronization sources -/

/-- Modelled from the spec: the constant `sdp.AttrKeySsrc` of the SDP package,
which is declared outside these files: the key of the `ssrc` attributes. -/
def AttrKeySsrc : Str := "ssrc".toList

/-- The struct `sdpSsrcMedia`. -/
structure sdpSsrcMedia where
  Ssrc : Nat
  Attribute : Str
  Value : Str
  deriving DecidableEq, Repr

/-- The struct `RTCRtpCodingParameters`, with the two fields these files use. -/
structure RTCRtpCodingParameters where
  SSRC : Nat
  PayloadType : Nat
  deriving DecidableEq, Repr

/-- The struct `RTCRtpDecodingParameters`, which embeds the coding parameters. -/
structure RTCRtpDecodingParameters extends RTCRtpCodingParameters where
  deriving DecidableEq, Repr

/-- The function `sdpParseSsrcMedia`. -/
def sdpParseSsrcMedia (a : Attribute) : Except Err sdpSsrcMedia :=
  let sp := stringsIndex a.Value ' '
  if sp < 1 then .error (.ssrcAttributeTooShort a.Value)
  else
    let ssrcStr := sliceTo a.Value sp
    match strconvParseUint ssrcStr 32 with
    | none => .error (.failedToParseSsrc ssrcStr)
    | some ssrc =>
      let parts := stringsSplit (sliceFrom a.Value (sp + 1)) ':'
      let attr := parts.getD 0 []
      let value := if parts.length > 1 then parts.getD 1 [] else []
      .ok { Ssrc := ssrc % 2 ^ 32, Attribute := attr, Value := value }

/-- The closure passed to `sdpMatchAttributePrefixFunc` by
`sdpParseRtpDecodingParameters`, acting on the slice `ssrcs` it captures. -/
def sdpSsrcCnameParser (ssrcs : List sdpSsrcMedia) (a : Attribute) :
    Except Err (List sdpSsrcMedia) :=
  match sdpParseSsrcMedia a with
  | .error pErr => .error pErr
  | .ok ssrc => if ssrc.Attribute = "cname".toList then .ok (ssrcs ++ [ssrc]) else .ok ssrcs

/-- The function `sdpParseRtpDecodingParameters`. -/
def sdpParseRtpDecodingParameters (d : MediaDescription) :
    Except Err (List RTCRtpDecodingParameters) :=
  match sdpMatchAttributePrefixFunc d AttrKeySsrc [] sdpSsrcCnameParser [] with
  | .error err => .error (.failedToParseSsrcs err)
  | .ok ssrcs =>
    match ssrcs with
    | [] => .error .noSsrcFound
    | first :: _ => .ok [{ SSRC := first.Ssrc, PayloadType := 0 }]

/-! ## mediaengine.go: lookup by kind -/

/-- The loop of `MediaEngine.getCodecsByKind` over the remaining codecs, with
the slice collected so far. -/
def getCodecsByKindLoop (rest : List RTCRtpCodec) (kind : RTCRtpCodecType)
    (codecs : List RTCRtpCodec) : List RTCRtpCodec :=
  match rest with
  | [] => codecs
  | codec :: rest2 =>
    if codec.Typ = kind then getCodecsByKindLoop rest2 kind (codecs ++ [codec])
    else getCodecsByKindLoop rest2 kind codecs

/-- The method `MediaEngine.getCodecsByKind`: the engine after the call and
the returned slice. -/
def getCodecsByKind (m : MediaEngine) (kind : RTCRtpCodecType) :
    MediaEngine × List RTCRtpCodec :=
  (m, getCodecsByKindLoop m.codecs kind [])

/-! ## rtcrtpparameters.go -/

/-- The struct `RTCRtpReceiveParameters`: the embedded `RTCRtpParameters` and
the `Encodings`. -/
structure RTCRtpReceiveParameters extends RTCRtpParameters where
  Encodings : List RTCRtpDecodingParameters
  deriving DecidableEq

/-- The loop of `RTCRtpReceiveParameters.getCodecParameters`. -/
def getCodecParametersLoop (codecs : List RTCRtpCodecParameters) (payloadType : Nat) :
    Except Err RTCRtpCodecParameters :=
  match codecs with
  | [] => .error (.payloadTypeNotFound payloadType)
  | codec :: rest =>
    if codec.PayloadType = payloadType then .ok codec
    else getCodecParametersLoop rest payloadType

/-- The method `RTCRtpReceiveParameters.getCodecParameters`. -/
def getCodecParameters (p : RTCRtpReceiveParameters) (payloadType : Nat) :
    Except Err RTCRtpCodecParameters :=
  getCodecParametersLoop p.Codecs payloadType

/-! ## rtcrtpreceiver.go, rtcrtpsender.go, rtcrtptranceiver.go -/

/-- The struct `RTCTrack`, with the fields set by `Receive` and the mode flag
read by the sender; its queues are left out. -/
structure RTCTrack where
  PayloadType : Nat
  Kind : RTCRtpCodecType
  Codec : RTCRtpCodec
  Ssrc : Nat
  isRawRTP : Bool
  deriving DecidableEq, Repr

/-- The struct `RTCRtpReceiver`: kind, track and closed flag; the transport,
the queues and the read streams are left out. -/
structure RTCRtpReceiver where
  kind : RTCRtpCodecType
  Track : Option RTCTrack
  closed : Bool
  deriving DecidableEq, Repr

/-- The struct `RTCRtpSender`: the track; transport and api are left out. -/
structure RTCRtpSender where
  Track : Option RTCTrack
  deriving DecidableEq, Repr

/-- Modelled from the spec: the type `RTCRtpTransceiverDirection`, declared
outside these files, with its four named values; `Unknown` stands for any
other value of the underlying integer. -/
inductive RTCRtpTransceiverDirection where
  | Sendrecv
  | Sendonly
  | Recvonly
  | Inactive
  | Unknown (raw : Int)
  deriving DecidableEq, Repr

/-- The struct `RTCRtpTransceiver`; the back reference to the peer connection
is left out. -/
structure RTCRtpTransceiver where
  Mid : Str
  Sender : Option RTCRtpSender
  Receiver : Option RTCRtpReceiver
  Direction : RTCRtpTransceiverDirection
  stopped : Bool
  remoteCapabilities : RTCRtpParameters
  recvDecodingParameters : List RTCRtpDecodingParameters
  deriving DecidableEq

/-- The method `RTCRtpTransceiver.setSendingTrack`: the transceiver after the
call and the returned error; `none` is the nil dereference of a transceiver
without sender. -/
def setSendingTrack (t : RTCRtpTransceiver) (track : Option RTCTrack) :
    Option (RTCRtpTransceiver × Option Err) :=
  match t.Sender with
  | none => none
  | some sender =>
    let t1 := { t with Sender := some { sender with Track := track } }
    match t1.Direction with
    | .Recvonly => some ({ t1 with Direction := .Sendrecv }, none)
    | .Inactive => some ({ t1 with Direction := .Sendonly }, none)
    | _ => some (t1, some .invalidStateChange)

/-- What the collaborators answer during one call of `Receive`: the errors of
the two `OpenReadStream` calls (`none` for nil) and the payload type that the
RTP read loop hands over from the first packet (`none` when no packet ever
arrives). -/
structure ReceiveEnv where
  openRTP : Option Err
  openRTCP : Option Err
  firstPayloadType : Option Nat

/-- How a call of `Receive` ends. -/
inductive ReceiveOutcome where
  /-- Index out of range on `parameters.Encodings[0]`. -/
  | panics
  /-- The call waits for a payload type that never comes. -/
  | blocks
  /-- The call returns: the receiver after the call and the error. -/
  | returns (r : RTCRtpReceiver) (err : Option Err)

/-- The method `RTCRtpReceiver.Receive`, for the media engine of the
receiver's api object and the answers of the collaborators. -/
def Receive (r : RTCRtpReceiver) (mediaEngine : MediaEngine)
    (parameters : RTCRtpReceiveParameters) (env : ReceiveEnv) : ReceiveOutcome :=
  match parameters.Encodings with
  | [] => .panics
  | enc :: _ =>
    let ssrc := enc.SSRC
    match env.openRTP with
    | some err => .returns r (some (.failedToOpenRTPReadStream ssrc err))
    | none =>
      match env.openRTCP with
      | some err => .returns r (some (.failedToOpenRTCPReadStream ssrc err))
      | none =>
        match env.firstPayloadType with
        | none => .blocks
        | some payloadType =>
          match getCodecParameters parameters payloadType with
          | .error err => .returns r (some (.failedToFindCodecParameters err))
          | .ok codecParams =>
            match getCodecSDP mediaEngine codecParams with
            | .error _ => .returns r (some (.codecNotRegistered codecParams.String))
            | .ok codec =>
              .returns { r with Track := some { PayloadType := payloadType, Kind := codec.Typ,
                                                Codec := codec, Ssrc := ssrc,
                                                isRawRTP := false } } none

/-- A run of `RegisterCodec` calls, in order: the final engine and the
identifiers the calls returned. -/
def registerCodecs (m : MediaEngine) (cs : List RTCRtpCodec) : MediaEngine × List Nat :=
  match cs with
  | [] => (m, [])
  | c :: rest =>
    let r := RegisterCodec m c
    let rr := registerCodecs r.1 rest
    (rr.1, r.2 :: rr.2)

/-- Equality of two Go maps as finite maps: the same keys with the same
values. -/
def StrMap.SameAs (a b : StrMap) : Prop := ∀ k, a.get k = b.get k

/-- The negotiation match of a registered codec against candidate parameters:
equal name, clock rate and channel count, a format line that parses, and a
parsed map equal to the candidate's. -/
def MatchesSDP (p : RTCRtpCodecParameters) (c : RTCRtpCodec) : Prop :=
  c.Name = p.Name ∧ c.ClockRate = p.ClockRate ∧ c.Channels = p.Channels ∧
    ∃ b, sdpParseFmtpString c.SdpFmtpLine = .ok b ∧ b.SameAs p.Parameters

/-- The text of an attribute value before its first space (the whole value
when it has no space). -/
def fieldBeforeSpace (line : Str) : Str := line.takeWhile (fun c => decide (c ≠ ' '))

/-- The text of an attribute value after its first space (empty when it has
no space). -/
def fieldAfterSpace (line : Str) : Str := (line.dropWhile (fun c => decide (c ≠ ' '))).drop 1

/-- The malformed rtpmap values: no space after the payload type, a payload
type that is not an 8-bit unsigned decimal, no '/' after the name, a clock
rate (the second '/'-separated part) that is not a 32-bit unsigned decimal, or
exactly three '/'-separated parts of which the third is not a 32-bit unsigned
decimal. -/
def RtpMapMalformed (line : Str) : Prop :=
  ' ' ∉ line ∨
  strconvParseUint (fieldBeforeSpace line) 8 = none ∨
  '/' ∉ fieldAfterSpace line ∨
  strconvParseUint ((stringsSplit (fieldAfterSpace line) '/').getD 1 []) 32 = none ∨
  ((stringsSplit (fieldAfterSpace line) '/').length = 3 ∧
    strconvParseUint ((stringsSplit (fieldAfterSpace line) '/').getD 2 []) 32 = none)

/-- Segments joined with a one-character separator, as in Go `strings.Join`. -/
def joinSegments (sep : Char) (segs : List Str) : Str :=
  match segs with
  | [] => []
  | [x] => x
  | x :: y :: rest => x ++ sep :: joinSegments sep (y :: rest)

/-- The format string "k1=v1;...;kn=vn" of a list of key/value pairs. -/
def fmtpLine (l : List (Str × Str)) : Str :=
  joinSegments ';' (l.map (fun e => e.1 ++ '=' :: e.2))

/-- A string without leading or trailing white space. -/
abbrev NoOuterSpace (s : Str) : Prop :=
  s.head?.map unicodeIsSpace ≠ some true ∧ s.getLast?.map unicodeIsSpace ≠ some true

/-- A key or value that the format string carries unchanged: no ';', no '=',
no leading or trailing white space. -/
abbrev FmtpToken (s : Str) : Prop := ';' ∉ s ∧ '=' ∉ s ∧ NoOuterSpace s

/-- The map with entries a=1 and b=2. -/
def exampleParams : StrMap := (StrMap.empty.set "b".toList "2".toList).set "a".toList "1".toList

/-- Candidate codec parameters carrying only a parameter map. -/
def paramsOnly (m : StrMap) : RTCRtpCodecParameters :=
  { Name := [], MimeType := [], PayloadType := 0, ClockRate := 0, Maxptime := 0, Ptime := 0,
    Channels := 0, RtcpFeedback := [], Parameters := m }

/-- The attributes of `d` with the given key whose value starts with `pfx`,
in attribute order. -/
def attributesWith (d : MediaDescription) (key pfx : Str) : List Attribute :=
  d.Attributes.filter (fun a => decide (a.Key = key) && stringsHasPrefix a.Value pfx)

/-- The codec entry that belongs to the rtpmap attribute `a` of `d`: the
codec `c0` parsed by `sdpParseRtpMap`, with `Parameters` the parse of the last
fmtp attribute whose value starts with the decimal payload type of `c0` and a
space (the unset map when there is none), and `RtcpFeedback` the parses, in
attribute order, of the rtcp-fb attributes with that same start. -/
def CodecFor (d : MediaDescription) (a : Attribute) (c : RTCRtpCodecParameters) : Prop :=
  ∃ c0, sdpParseRtpMap a = .ok c0 ∧
    (match (attributesWith d "fmtp".toList (formatUint c0.PayloadType ++ [' '])).getLast? with
      | none => c.Parameters = StrMap.empty
      | some f => sdpParseFmtp f = .ok c.Parameters) ∧
    List.Forall₂ (fun f fb => sdpParseRtcpFeedback f = .ok fb)
      (attributesWith d "rtcp-fb".toList (formatUint c0.PayloadType ++ [' '])) c.RtcpFeedback ∧
    c.Name = c0.Name ∧ c.MimeType = c0.MimeType ∧ c.PayloadType = c0.PayloadType ∧
    c.ClockRate = c0.ClockRate ∧ c.Maxptime = c0.Maxptime ∧ c.Ptime = c0.Ptime ∧
    c.Channels = c0.Channels

/-- The codec that the closure of `sdpRtpCodecParser` appends for the rtpmap
attribute `a`: its body up to the append. -/
def correlatedCodec (d : MediaDescription) (a : Attribute) : Except Err RTCRtpCodecParameters :=
  match sdpParseRtpMap a with
  | .error err => .error err
  | .ok codec =>
    match sdpMatchAttributePrefixFunc d "fmtp".toList (formatUint codec.PayloadType ++ [' '])
        (sdpRtpFmtpParser d) codec with
    | .error err => .error (.failedToParseFmtp err)
    | .ok codec1 =>
      match sdpMatchAttributePrefixFunc d "rtcp-fb".toList
          (formatUint codec1.PayloadType ++ [' ']) (sdpRtpRtcpFeedbackParser d) codec1 with
      | .error err => .error (.failedToParseRtcpFeedback err)
      | .ok codec2 => .ok codec2

/-- A media section with one format, 96: VP8 with two fmtp lines, one
rtcp-fb line and one header extension; the opus lines belong to no listed
format. -/
def exampleMedia : MediaDescription :=
  { MediaName := { Formats := ["96".toList] },
    Attributes :=
      [⟨"rtpmap".toList, "96 VP8/90000".toList⟩,
       ⟨"rtpmap".toList, "111 opus/48000/2".toList⟩,
       ⟨"fmtp".toList, "96 a=1".toList⟩,
       ⟨"fmtp".toList, "111 minptime=10".toList⟩,
       ⟨"fmtp".toList, "96 b=2;c=3".toList⟩,
       ⟨"rtcp-fb".toList, "96 nack pli".toList⟩,
       ⟨"extmap".toList, "2/sendonly urn:ietf:params:rtp-hdrext:toffset".toList⟩] }

/-- The parameters parsed from `exampleMedia`. -/
def exampleMediaParameters : RTCRtpParameters :=
  { Codecs :=
      [{ Name := "VP8".toList, MimeType := [], PayloadType := 96, ClockRate := 90000,
         Maxptime := 0, Ptime := 0, Channels := 0,
         RtcpFeedback := [{ Typ := "nack".toList, Parameter := "pli".toList }],
         Parameters := (StrMap.empty.set "b".toList "2".toList).set "c".toList "3".toList }],
    HeaderExtensions :=
      [{ ID := 2, direction := "sendonly".toList,
         URI := "urn:ietf:params:rtp-hdrext:toffset".toList }] }

/-- A VP8 track with payload type 96 and the given synchronization source. -/
def exampleTrack (ssrc : Nat) : RTCTrack :=
  { PayloadType := 96, Kind := RTCRtpCodecTypeVideo, Codec := NewRTCRtpVP8Codec 96 90000,
    Ssrc := ssrc, isRawRTP := false }

/-- A transceiver with the given direction whose sender holds track 1. -/
def exampleTransceiver (direction : RTCRtpTransceiverDirection) : RTCRtpTransceiver :=
  { Mid := "0".toList, Sender := some { Track := some (exampleTrack 1) }, Receiver := none,
    Direction := direction, stopped := false,
    remoteCapabilities := { Codecs := [], HeaderExtensions := [] },
    recvDecodingParameters := [] }

/-- Receive parameters negotiated from `exampleMedia` with one decoding
target. -/
def exampleReceiveParameters : RTCRtpReceiveParameters :=
  { Codecs := exampleMediaParameters.Codecs,
    HeaderExtensions := exampleMediaParameters.HeaderExtensions,
    Encodings := [{ SSRC := 1234, PayloadType := 0 }] }

/-- Collaborators that open both streams and hand over the given payload
type. -/
def exampleEnv (payloadType : Nat) : ReceiveEnv :=
  { openRTP := none, openRTCP := none, firstPayloadType := some payloadType }

/-- The cname-tagged ssrc attributes of a list of attributes, parsed, in
attribute order. -/
def cnameSsrcs (attrs : List Attribute) : List sdpSsrcMedia :=
  attrs.filterMap (fun a =>
    if a.Key = AttrKeySsrc then
      match sdpParseSsrcMedia a with
      | .ok s => if s.Attribute = "cname".toList then some s else none
      | .error _ => none
    else none)

/-- An ssrc attribute whose attribute name is "cname". -/
def CnameSsrc (a : Attribute) : Prop :=
  a.Key = AttrKeySsrc ∧ ∃ s, sdpParseSsrcMedia a = .ok s ∧ s.Attribute = "cname".toList

/-- A media section with two cname-tagged ssrc attributes, after an msid
one. -/
def exampleSsrcMedia : MediaDescription :=
  { MediaName := { Formats := ["96".toList] },
    Attributes :=
      [⟨"ssrc".toList, "1111 msid:stream track".toList⟩,
       ⟨"ssrc".toList, "2222 cname:first".toList⟩,
       ⟨"ssrc".toList, "3333 cname:second".toList⟩] }

/-- Some correlated attribute of `d` fails to parse: an rtpmap attribute
whose value starts with a listed format and a space, an fmtp or rtcp-fb
attribute whose value starts with the decimal payload type of a codec parsed
from such an rtpmap attribute and a space, or an extmap attribute. -/
def CorrelatedFailure (d : MediaDescription) : Prop :=
  (∃ f ∈ d.MediaName.Formats, ∃ a ∈ attributesWith d "rtpmap".toList (f ++ [' ']),
    (∀ c0, sdpParseRtpMap a ≠ .ok c0) ∨
    ∃ c0, sdpParseRtpMap a = .ok c0 ∧
      ((∃ x ∈ attributesWith d "fmtp".toList (formatUint c0.PayloadType ++ [' ']),
          ∀ m, sdpParseFmtp x ≠ .ok m) ∨
       (∃ x ∈ attributesWith d "rtcp-fb".toList (formatUint c0.PayloadType ++ [' ']),
          ∀ fb, sdpParseRtcpFeedback x ≠ .ok fb))) ∨
  (∃ a ∈ d.Attributes, a.Key = "extmap".toList ∧ ∀ e, sdpParseExtmap a ≠ .ok e)

/-- A media section like `exampleMedia` whose second fmtp line for format 96
has a segment without '='. -/
def exampleBrokenMedia : MediaDescription :=
  { MediaName := { Formats := ["96".toList] },
    Attributes :=
      [⟨"rtpmap".toList, "96 VP8/90000".toList⟩,
       ⟨"fmtp".toList, "96 a=1".toList⟩,
       ⟨"fmtp".toList, "96 novalue".toList⟩,
       ⟨"extmap".toList, "2/sendonly urn:ietf:params:rtp-hdrext:toffset".toList⟩] }

/-- Segments joined with a separator string, as in Go `strings.Join`. -/
def joinWith (sep : Str) (segs : List Str) : Str :=
  match segs with
  | [] => []
  | [x] => x
  | x :: y :: rest => x ++ sep ++ joinWith sep (y :: rest)

/-- The format string "k1=v1; k2=v2; ..." of a list of key/value pairs, with a
space after every separator. -/
def fmtpLineSpaced (l : List (Str × Str)) : Str :=
  joinWith [';', ' '] (l.map (fun e => e.1 ++ '=' :: e.2))

/-! ## Stopping the engines -/

/-- A read stream of the transport (`srtp.ReadStreamSRTP`, `ReadStreamSRTCP`)
as `Stop` sees it: the number of `Close` calls it has received. -/
structure ReadStream where
  closeCalls : Nat
  deriving DecidableEq, Repr

/-- The fields `rtpReadStream` and `rtcpReadStream` of `RTCRtpReceiver`, which
the read loops set when the receiver is started (`none` is nil). -/
structure ReceiverStreams where
  rtpReadStream : Option ReadStream
  rtcpReadStream : Option ReadStream
  deriving DecidableEq, Repr

/-- What the collaborators answer during one call of `RTCRtpReceiver.Stop`:
the errors of the two `Close` calls (`none` for nil) and whether the two read
loops fire their completion signals. -/
structure StopEnv where
  rtcpCloseErr : Option Err
  rtpCloseErr : Option Err
  rtcpOutDone : Bool
  rtpOutDone : Bool
  deriving DecidableEq, Repr

/-- How a call of `RTCRtpReceiver.Stop` ends. -/
inductive ReceiverStopOutcome where
  /-- `Close` is called on a nil read stream. -/
  | panics
  /-- The call waits for a completion signal that never comes. -/
  | blocks
  /-- The call returns: the receiver and its streams after the call, and the
  error. -/
  | returns (r : RTCRtpReceiver) (s : ReceiverStreams) (err : Option Err)
  deriving DecidableEq, Repr

/-- The method `RTCRtpReceiver.Stop`. -/
def RTCRtpReceiver.Stop (r : RTCRtpReceiver) (s : ReceiverStreams) (env : StopEnv) :
    ReceiverStopOutcome :=
  if r.closed then .returns r s (some .receiverAlreadyClosed)
  else
    match s.rtcpReadStream with
    | none => .panics
    | some rtcpStream =>
      let s1 := { s with rtcpReadStream := some { closeCalls := rtcpStream.closeCalls + 1 } }
      match env.rtcpCloseErr with
      | some err => .returns r s1 (some err)
      | none =>
        match s1.rtpReadStream with
        | none => .panics
        | some rtpStream =>
          let s2 := { s1 with rtpReadStream := some { closeCalls := rtpStream.closeCalls + 1 } }
          match env.rtpCloseErr with
          | some err => .returns r s2 (some err)
          | none =>
            if env.rtcpOutDone && env.rtpOutDone then
              .returns { r with closed := true } s2 none
            else .blocks

/-- A run of `RTCRtpReceiver.Stop` calls, one per answer of the collaborators:
the final receiver and streams and the errors returned, or `none` when a call
does not return. -/
def stopCalls (r : RTCRtpReceiver) (s : ReceiverStreams) (envs : List StopEnv) :
    Option (RTCRtpReceiver × ReceiverStreams × List (Option Err)) :=
  match envs with
  | [] => some (r, s, [])
  | env :: rest =>
    match r.Stop s env with
    | .returns r2 s2 err =>
      match stopCalls r2 s2 rest with
      | some (r3, s3, errs) => some (r3, s3, err :: errs)
      | none => none
    | _ => none

/-- The channels `RawRTP` and `Samples` of the sender's track: whether each
has been closed. -/
structure TrackChannels where
  RawRTPClosed : Bool
  SamplesClosed : Bool
  deriving DecidableEq, Repr

/-- How a call of `RTCRtpSender.Stop` ends: it panics (nil track, or close of
a closed channel) or returns with the channels after the call. -/
inductive SenderStopOutcome where
  | panics
  | returns (ch : TrackChannels)
  deriving DecidableEq, Repr

/-- The method `RTCRtpSender.Stop`. -/
def RTCRtpSender.Stop (r : RTCRtpSender) (ch : TrackChannels) : SenderStopOutcome :=
  match r.Track with
  | none => .panics
  | some track =>
    if track.isRawRTP then
      if ch.RawRTPClosed then .panics else .returns { ch with RawRTPClosed := true }
    else
      if ch.SamplesClosed then .panics else .returns { ch with SamplesClosed := true }

/-- How a call of `RTCRtpTransceiver.Stop` ends. -/
inductive TransceiverStopOutcome where
  | panics
  | blocks
  /-- The call returns: the transceiver, the sender's channels and the
  receiver's streams after the call, and the error. -/
  | returns (t : RTCRtpTransceiver) (ch : TrackChannels) (s : ReceiverStreams)
      (err : Option Err)
  deriving DecidableEq

/-- The method `RTCRtpTransceiver.Stop`. -/
def RTCRtpTransceiver.Stop (t : RTCRtpTransceiver) (ch : TrackChannels) (s : ReceiverStreams)
    (env : StopEnv) : TransceiverStopOutcome :=
  let afterSender : SenderStopOutcome :=
    match t.Sender with
    | none => .returns ch
    | some sender => sender.Stop ch
  match afterSender with
  | .panics => .panics
  | .returns ch1 =>
    match t.Receiver with
    | none => .returns t ch1 s none
    | some receiver =>
      match receiver.Stop s env with
      | .panics => .panics
      | .blocks => .blocks
      | .returns r2 s2 err => .returns { t with Receiver := some r2 } ch1 s2 err

/-- A started receiver with both read streams open and never closed. -/
def exampleStreams : ReceiverStreams :=
  { rtpReadStream := some { closeCalls := 0 }, rtcpReadStream := some { closeCalls := 0 } }

/-- Collaborators that close both streams without error and fire both
completion signals. -/
def exampleStopEnv : StopEnv :=
  { rtcpCloseErr := none, rtpCloseErr := none, rtcpOutDone := true, rtpOutDone := true }

/-- A transceiver that has neither a sender nor a receiver. -/
def exampleBareTransceiver : RTCRtpTransceiver :=
  { exampleTransceiver .Inactive with Sender := none, Receiver := none }

/-! ## The receive loops -/

/-- The state of one receive loop (`createRecvLoopRTP`, `recvLoopRTCP`) and of
its output queue: the queue contents, oldest first (`rtpOut`, `rtcpOut`, of
capacity 15), whether the queue is closed, whether the completion signal has
fired (`rtpOutDone`, `rtcpOutDone`), whether the loop is still running, and
whether the hand-off channel `payloadTypeCh` is non-nil. -/
structure LoopState (α : Type) where
  out : List α
  outClosed : Bool
  done : Bool
  running : Bool
  payloadTypeCh : Bool
  deriving DecidableEq, Repr

/-- What happens to a receive loop: `stream.Read` fails; a unit is read that
fails to unmarshal; a unit `u` is read and unmarshals, while the caller of
`Receive` is or is not waiting on the hand-off channel, with the scheduler's
preference when both sends of the `select` are ready; or the application takes
one unit from the output queue. -/
inductive LoopEvent (α : Type) where
  | readError
  | malformed
  | unit (u : α) (receiverWaiting : Bool) (preferHandOff : Bool)
  | consumerTakes
  deriving DecidableEq, Repr

/-- One event of the loop built by `createRecvLoopRTP`.  The `select` sends on
`payloadTypeCh` when that send is ready and either the queue is full or the
scheduler prefers it, else on the queue when it has room, else takes the
`default` branch. -/
def recvLoopRTPStep {α : Type} (st : LoopState α) (ev : LoopEvent α) : LoopState α :=
  match ev with
  | .consumerTakes => { st with out := st.out.drop 1 }
  | .readError =>
    if st.running then { st with running := false, outClosed := true, done := true } else st
  | .malformed => st
  | .unit u receiverWaiting preferHandOff =>
    if st.running then
      if (st.payloadTypeCh && receiverWaiting) &&
          (!decide (st.out.length < 15) || preferHandOff) then
        { st with payloadTypeCh := false }
      else if st.out.length < 15 then { st with out := st.out ++ [u] }
      else st
    else st

/-- One event of the loop `recvLoopRTCP`, whose `select` has only the send on
the queue and the `default` branch. -/
def recvLoopRTCPStep {α : Type} (st : LoopState α) (ev : LoopEvent α) : LoopState α :=
  match ev with
  | .consumerTakes => { st with out := st.out.drop 1 }
  | .readError =>
    if st.running then { st with running := false, outClosed := true, done := true } else st
  | .malformed => st
  | .unit u _ _ =>
    if st.running then
      if st.out.length < 15 then { st with out := st.out ++ [u] } else st
    else st

/-- The state in which the RTP loop starts: an empty open queue and a hand-off
channel. -/
def rtpLoopStart (α : Type) : LoopState α :=
  { out := [], outClosed := false, done := false, running := true, payloadTypeCh := true }

/-- The state in which the RTCP loop starts: an empty open queue, no hand-off
channel. -/
def rtcpLoopStart (α : Type) : LoopState α :=
  { out := [], outClosed := false, done := false, running := true, payloadTypeCh := false }

/-- The units of a run of events that were read and unmarshalled, in arrival
order. -/
def unitsOf {α : Type} (evs : List (LoopEvent α)) : List α :=
  evs.filterMap (fun ev =>
    match ev with
    | .unit u _ _ => some u
    | _ => none)

/-- The units 0, 1, ..., n-1 arriving while nobody waits for the hand-off. -/
def floodEvents (n : Nat) : List (LoopEvent Nat) :=
  (List.range n).map (fun i => LoopEvent.unit i false false)

/-! ## Lemmas on string maps -/

theorem find_key_eq_some_iff (l : List (Str × Str)) (h : (l.map Prod.fst).Nodup)
    (k v : Str) :
    (l.find? (fun e => decide (e.1 = k))).map Prod.snd = some v ↔ (k, v) ∈ l := by
  induction l with
  | nil => simp
  | cons e rest ih =>
    rw [List.map_cons, List.nodup_cons] at h
    by_cases hk : e.1 = k
    · have hnot : (k, v) ∉ rest := by
        intro hmem
        exact h.1 (List.mem_map.2 ⟨(k, v), hmem, hk.symm⟩)
      simp only [List.find?_cons, hk, decide_True, Option.map_some', Option.some.injEq,
        List.mem_cons]
      constructor
      · intro hv
        left
        rw [← hk, ← hv]
      · rintro (heq | hmem)
        · rw [← heq]
        · exact absurd hmem hnot
    · have hne : (k, v) ≠ e := by
        intro heq
        exact hk (by rw [← heq])
      simp only [List.find?_cons, hk, decide_False, List.mem_cons, hne, false_or]
      exact ih h.2

theorem StrMap.get_eq_some_iff (m : StrMap) (k v : Str) :
    m.get k = some v ↔ (k, v) ∈ m.entries :=
  find_key_eq_some_iff m.entries m.nodup k v

theorem StrMap.sameAs_iff_entries (a b : StrMap) :
    a.SameAs b ↔ ∀ e, e ∈ a.entries ↔ e ∈ b.entries := by
  constructor
  · intro h e
    obtain ⟨k, v⟩ := e
    rw [← a.get_eq_some_iff, ← b.get_eq_some_iff, h k]
  · intro h k
    apply Option.ext
    intro v
    simp only [Option.mem_def]
    rw [a.get_eq_some_iff, b.get_eq_some_iff]
    exact h (k, v)

theorem StrMap.get_empty (k : Str) : StrMap.empty.get k = none := rfl

theorem find_key_filter_ne (l : List (Str × Str)) (k k2 : Str) (h : ¬ k2 = k) :
    (l.filter (fun e => decide (e.1 ≠ k))).find? (fun e => decide (e.1 = k2)) =
      l.find? (fun e => decide (e.1 = k2)) := by
  induction l with
  | nil => rfl
  | cons e rest ih =>
    by_cases he : e.1 = k
    · have he2 : ¬ e.1 = k2 := by rw [he]; exact fun e => h e.symm
      have hf : decide (e.1 ≠ k) = false := by simp [he]
      have hg : decide (e.1 = k2) = false := by simp [he2]
      rw [List.filter_cons, List.find?_cons, hf, hg]
      exact ih
    · have hf : decide (e.1 ≠ k) = true := by simp [he]
      rw [List.filter_cons, hf, if_pos rfl, List.find?_cons, List.find?_cons, ih]

theorem StrMap.get_set (m : StrMap) (k v k2 : Str) :
    (m.set k v).get k2 = if k2 = k then some v else m.get k2 := by
  unfold StrMap.set StrMap.get
  by_cases h : k2 = k
  · subst h
    simp
  · have h2 : ¬ k = k2 := fun e => h e.symm
    simp only [List.find?_cons, h2, decide_False, h, if_false]
    rw [find_key_filter_ne _ _ _ h]

theorem cmpMapStringString_iff (a b : StrMap) :
    cmpMapStringString a b = true ↔ a.SameAs b := by
  have hsub : (∀ e ∈ a.entries, e ∈ b.entries) ↔
      a.entries.all (fun e => match b.get e.1 with
        | none => false
        | some vb => decide (vb = e.2)) = true := by
    rw [List.all_eq_true]
    constructor
    · intro h e he
      have := (b.get_eq_some_iff e.1 e.2).2 (h e he)
      rw [this]
      simp
    · intro h e he
      have h1 := h e he
      apply (b.get_eq_some_iff e.1 e.2).1
      cases hg : b.get e.1 with
      | none => rw [hg] at h1; simp at h1
      | some vb =>
        rw [hg] at h1
        simp only [decide_eq_true_eq] at h1
        rw [h1]
  rw [StrMap.sameAs_iff_entries]
  unfold cmpMapStringString StrMap.len
  constructor
  · intro h
    by_cases hl : a.entries.length = b.entries.length
    · simp only [hl, ne_eq, not_true_eq_false, if_false] at h
      have hs : a.entries ⊆ b.entries := fun e he => hsub.2 h e he
      have hp : a.entries.Perm b.entries :=
        (List.subperm_of_subset (a.nodup.of_map _) hs).perm_of_length_le (le_of_eq hl.symm)
      exact fun e => hp.mem_iff
    · simp [hl] at h
  · intro h
    have hp : a.entries.Perm b.entries :=
      (List.perm_ext_iff_of_nodup (a.nodup.of_map _) (b.nodup.of_map _)).2 h
    have hl : a.entries.length = b.entries.length := hp.length_eq
    simp only [hl, ne_eq, not_true_eq_false, if_false]
    exact hsub.1 (fun e he => (h e).1 he)

/-! ## Lemmas on strings -/

theorem stringsSplit_of_not_mem (s : Str) (sep : Char) (h : sep ∉ s) :
    stringsSplit s sep = [s] := by
  induction s with
  | nil => rfl
  | cons c cs ih =>
    have hc : ¬ c = sep := fun e => h (e ▸ List.mem_cons_self _ _)
    have hcs : sep ∉ cs := fun e => h (List.mem_cons_of_mem _ e)
    rw [stringsSplit, if_neg hc, ih hcs]

theorem stringsSplit_append (s t : Str) (sep : Char) (h : sep ∉ s) :
    stringsSplit (s ++ sep :: t) sep = s :: stringsSplit t sep := by
  induction s with
  | nil =>
    rw [List.nil_append, stringsSplit, if_pos rfl]
  | cons c cs ih =>
    have hc : ¬ c = sep := fun e => h (e ▸ List.mem_cons_self _ _)
    have hcs : sep ∉ cs := fun e => h (List.mem_cons_of_mem _ e)
    rw [List.cons_append, stringsSplit, if_neg hc, ih hcs]

theorem stringsSplit_ne_nil (s : Str) (sep : Char) : stringsSplit s sep ≠ [] := by
  cases s with
  | nil => simp [stringsSplit]
  | cons c cs =>
    rw [stringsSplit]
    split
    · simp
    · split <;> simp

theorem stringsSplit_of_mem (s : Str) (sep : Char) (h : sep ∈ s) :
    ∃ p0 p1 rest, stringsSplit s sep = p0 :: p1 :: rest := by
  induction s with
  | nil => exact absurd h (List.not_mem_nil _)
  | cons c cs ih =>
    by_cases hc : c = sep
    · rw [stringsSplit, if_pos hc]
      cases hs : stringsSplit cs sep with
      | nil => exact absurd hs (stringsSplit_ne_nil cs sep)
      | cons p1 rest => exact ⟨[], p1, rest, rfl⟩
    · have hcs : sep ∈ cs := by
        rcases List.mem_cons.1 h with e | e
        · exact absurd e.symm hc
        · exact e
      obtain ⟨p0, p1, rest, hs⟩ := ih hcs
      rw [stringsSplit, if_neg hc, hs]
      exact ⟨c :: p0, p1, rest, rfl⟩

theorem stringsIndex_of_not_mem (s : Str) (sep : Char) (h : sep ∉ s) :
    stringsIndex s sep = -1 := by
  induction s with
  | nil => rfl
  | cons c cs ih =>
    have hc : ¬ c = sep := fun e => h (e ▸ List.mem_cons_self _ _)
    have hcs : sep ∉ cs := fun e => h (List.mem_cons_of_mem _ e)
    rw [stringsIndex, if_neg hc]
    simp only [ih hcs]
    rfl

theorem stringsIndex_append (s t : Str) (sep : Char) (h : sep ∉ s) :
    stringsIndex (s ++ sep :: t) sep = (s.length : Int) := by
  induction s with
  | nil =>
    rw [List.nil_append, stringsIndex, if_pos rfl]
    rfl
  | cons c cs ih =>
    have hc : ¬ c = sep := fun e => h (e ▸ List.mem_cons_self _ _)
    have hcs : sep ∉ cs := fun e => h (List.mem_cons_of_mem _ e)
    rw [List.cons_append, stringsIndex, if_neg hc]
    simp only [ih hcs]
    have : ¬ ((cs.length : Int) < 0) := by omega
    rw [if_neg this]
    simp

theorem sliceTo_append (s t : Str) (sep : Char) :
    sliceTo (s ++ sep :: t) (s.length : Int) = s := by
  simp [sliceTo]

theorem sliceFrom_append (s t : Str) (sep : Char) :
    sliceFrom (s ++ sep :: t) ((s.length : Int) + 1) = t := by
  have : ((s.length : Int) + 1).toNat = s.length + 1 := by omega
  simp [sliceFrom, this]

theorem dropWhile_eq_self_of_head (p : Char → Bool) (s : Str)
    (h : ∀ c, s.head? = some c → p c = false) : s.dropWhile p = s := by
  cases s with
  | nil => rfl
  | cons c cs =>
    have := h c rfl
    simp [List.dropWhile, this]

theorem stringsTrimSpace_eq_self (s : Str)
    (h1 : s.head?.map unicodeIsSpace ≠ some true)
    (h2 : s.getLast?.map unicodeIsSpace ≠ some true) :
    stringsTrimSpace s = s := by
  have h1 : ∀ c, s.head? = some c → unicodeIsSpace c = false := by
    intro c hc
    rw [hc] at h1
    cases hu : unicodeIsSpace c with
    | false => rfl
    | true => exact absurd (by rw [Option.map_some', hu]) h1
  have h2 : ∀ c, s.getLast? = some c → unicodeIsSpace c = false := by
    intro c hc
    rw [hc] at h2
    cases hu : unicodeIsSpace c with
    | false => rfl
    | true => exact absurd (by rw [Option.map_some', hu]) h2
  unfold stringsTrimSpace
  rw [dropWhile_eq_self_of_head _ s h1, dropWhile_eq_self_of_head _ s.reverse, List.reverse_reverse]
  intro c hc
  rw [List.head?_reverse] at hc
  exact h2 c hc

theorem mem_dropWhile_of_not (p : Char → Bool) (s : Str) (c : Char) (hc : c ∈ s)
    (hp : p c = false) : c ∈ s.dropWhile p := by
  induction s with
  | nil => exact absurd hc (List.not_mem_nil _)
  | cons x xs ih =>
    cases hx : p x with
    | false =>
      rw [List.dropWhile_cons, hx]
      exact hc
    | true =>
      rw [List.dropWhile_cons, hx]
      rcases List.mem_cons.1 hc with e | e
      · rw [e, hx] at hp
        cases hp
      · exact ih e

theorem stringsTrimSpace_ne_nil_of_mem (s : Str) (c : Char) (hc : c ∈ s)
    (hp : unicodeIsSpace c = false) : stringsTrimSpace s ≠ [] := by
  unfold stringsTrimSpace
  intro h
  have h1 := mem_dropWhile_of_not unicodeIsSpace s c hc hp
  have h2 := mem_dropWhile_of_not unicodeIsSpace _ c (List.mem_reverse.2 h1) hp
  rw [List.reverse_eq_nil_iff] at h
  rw [h] at h2
  exact absurd h2 (List.not_mem_nil _)

/-! ## Lemmas on decimal numbers -/

theorem digitChar_facts : ∀ d, d < 10 →
    digitValue (Nat.digitChar d) = some d ∧ Nat.digitChar d ≠ ' ' ∧
      Nat.digitChar d ≠ '/' := by
  decide

theorem toDigitsCore_spec (fuel : Nat) : ∀ (n : Nat) (ds : Str), n < fuel →
    ∃ xs : Str, Nat.toDigitsCore 10 fuel n ds = xs ++ ds ∧ xs ≠ [] ∧
      (∀ c ∈ xs, c ≠ ' ' ∧ c ≠ '/') ∧
      ∀ acc rest, parseDigits acc (xs ++ rest) = parseDigits (acc * 10 ^ xs.length + n) rest := by
  induction fuel with
  | zero => intro n ds h; omega
  | succ fuel ih =>
    intro n ds h
    have hd := digitChar_facts (n % 10) (Nat.mod_lt _ (by decide))
    by_cases hn : n / 10 = 0
    · refine ⟨[Nat.digitChar (n % 10)], ?_, by simp, ?_, ?_⟩
      · simp [Nat.toDigitsCore, hn]
      · intro c hc
        rw [List.mem_singleton] at hc
        rw [hc]
        exact hd.2
      · intro acc rest
        have hlt : n % 10 = n := by omega
        show parseDigits acc (Nat.digitChar (n % 10) :: rest) = _
        rw [parseDigits, hd.1]
        simp only [List.length_singleton, pow_one]
        rw [hlt]
    · have hlt : n / 10 < fuel := by omega
      obtain ⟨xs, h1, h2, h3, h4⟩ := ih (n / 10) (Nat.digitChar (n % 10) :: ds) hlt
      refine ⟨xs ++ [Nat.digitChar (n % 10)], ?_, by simp, ?_, ?_⟩
      · simp [Nat.toDigitsCore, hn, h1]
      · intro c hc
        rcases List.mem_append.1 hc with e | e
        · exact h3 c e
        · rw [List.mem_singleton] at e
          rw [e]
          exact hd.2
      · intro acc rest
        rw [List.append_assoc, h4]
        show parseDigits _ (Nat.digitChar (n % 10) :: rest) = _
        rw [parseDigits, hd.1]
        simp only [List.length_append, List.length_singleton]
        congr 1
        have := Nat.div_add_mod n 10
        rw [pow_succ]
        nlinarith [this]

theorem formatUint_spec (n : Nat) :
    formatUint n ≠ [] ∧ ' ' ∉ formatUint n ∧ '/' ∉ formatUint n ∧
      ∀ w, n < 2 ^ w → strconvParseUint (formatUint n) w = some n := by
  obtain ⟨xs, h1, h2, h3, h4⟩ := toDigitsCore_spec (n + 1) n [] (Nat.lt_succ_self n)
  have hx : formatUint n = xs := by
    unfold formatUint Nat.toDigits
    rw [h1, List.append_nil]
  rw [hx]
  refine ⟨h2, fun h => (h3 _ h).1 rfl, fun h => (h3 _ h).2 rfl, ?_⟩
  intro w hw
  have h5 := h4 0 []
  rw [List.append_nil] at h5
  simp only [Nat.zero_mul, Nat.zero_add, parseDigits] at h5
  cases hxs : xs with
  | nil => exact absurd hxs h2
  | cons c cs =>
    rw [hxs] at h5
    simp only [strconvParseUint, h5, hw, if_true]

/-! ## Codec registry -/

theorem getCodecLoop_append_of_ne (pre post : List RTCRtpCodec) (pt : Nat)
    (h : ∀ c ∈ pre, c.PayloadType ≠ pt) :
    getCodecLoop (pre ++ post) pt = getCodecLoop post pt := by
  induction pre with
  | nil => rfl
  | cons c rest ih =>
    have hc : ¬ c.PayloadType = pt := h c (List.mem_cons_self _ _)
    rw [List.cons_append, getCodecLoop, if_neg hc]
    exact ih (fun c2 h2 => h c2 (List.mem_cons_of_mem _ h2))

theorem getCodecLoop_ok (codecs : List RTCRtpCodec) (pt : Nat) (c : RTCRtpCodec)
    (h : getCodecLoop codecs pt = .ok c) : c ∈ codecs ∧ c.PayloadType = pt := by
  induction codecs with
  | nil => simp [getCodecLoop] at h
  | cons c2 rest ih =>
    by_cases hc : c2.PayloadType = pt
    · rw [getCodecLoop, if_pos hc] at h
      injection h with h
      subst h
      exact ⟨List.mem_cons_self _ _, hc⟩
    · rw [getCodecLoop, if_neg hc] at h
      exact ⟨List.mem_cons_of_mem _ (ih h).1, (ih h).2⟩

theorem getCodecLoop_error (codecs : List RTCRtpCodec) (pt : Nat) (e : Err)
    (h : getCodecLoop codecs pt = .error e) :
    e = .ErrCodecNotFound ∧ ∀ c ∈ codecs, c.PayloadType ≠ pt := by
  induction codecs with
  | nil =>
    simp only [getCodecLoop] at h
    injection h with h
    exact ⟨h.symm, fun c hc => absurd hc (List.not_mem_nil c)⟩
  | cons c2 rest ih =>
    by_cases hc : c2.PayloadType = pt
    · rw [getCodecLoop, if_pos hc] at h
      cases h
    · rw [getCodecLoop, if_neg hc] at h
      refine ⟨(ih h).1, fun c hmem => ?_⟩
      rcases List.mem_cons.1 hmem with heq | hmem2
      · rw [heq]; exact hc
      · exact (ih h).2 c hmem2

theorem getCodecLoop_of_mem (codecs : List RTCRtpCodec) (pt : Nat) (c : RTCRtpCodec)
    (hmem : c ∈ codecs) (hpt : c.PayloadType = pt) :
    ∃ c2, getCodecLoop codecs pt = .ok c2 := by
  cases hr : getCodecLoop codecs pt with
  | ok c2 => exact ⟨c2, rfl⟩
  | error e => exact absurd hpt ((getCodecLoop_error codecs pt e hr).2 c hmem)

theorem registerCodecs_spec (cs : List RTCRtpCodec) (m : MediaEngine) :
    (registerCodecs m cs).1.codecs = m.codecs ++ cs ∧
      (registerCodecs m cs).2 = cs.map (fun c => c.PayloadType) := by
  induction cs generalizing m with
  | nil => simp [registerCodecs]
  | cons c rest ih =>
    obtain ⟨h1, h2⟩ := ih (RegisterCodec m c).1
    simp only [registerCodecs, List.map_cons]
    rw [h1, h2]
    simp [RegisterCodec]

/-- C4 (as amended): after `RegisterCodec(c)` returns `p`, `getCodec(p)`
succeeds with a registered codec whose payload type is `p`; it is exactly `c`
when no codec registered earlier carries the same payload type. -/
theorem getCodec_after_RegisterCodec (m : MediaEngine) (c : RTCRtpCodec)
    (hfresh : ∀ c2 ∈ m.codecs, c2.PayloadType ≠ c.PayloadType) :
    (RegisterCodec m c).2 = c.PayloadType ∧
      getCodec (RegisterCodec m c).1 (RegisterCodec m c).2 = .ok c := by
  refine ⟨rfl, ?_⟩
  show getCodecLoop (m.codecs ++ [c]) c.PayloadType = .ok c
  rw [getCodecLoop_append_of_ne _ _ _ hfresh, getCodecLoop, if_pos rfl]

/-- C4 witness: registering VP8 under 96 in an engine that holds opus under
111, then looking up 96. -/
theorem getCodec_after_RegisterCodec_witness :
    getCodec (RegisterCodec ⟨[NewRTCRtpOpusCodec 111 48000 2]⟩
        (NewRTCRtpVP8Codec 96 90000)).1 96 = .ok (NewRTCRtpVP8Codec 96 90000) :=
  (getCodec_after_RegisterCodec ⟨[NewRTCRtpOpusCodec 111 48000 2]⟩
    (NewRTCRtpVP8Codec 96 90000) (by decide)).2

/-- C4 counterexample: with VP8 already registered under 96, registering H264
under 96 returns 96, and `getCodec(96)` then returns the VP8 codec, not the
H264 codec that was passed. -/
theorem getCodec_after_RegisterCodec_counterexample :
    (RegisterCodec ⟨[NewRTCRtpVP8Codec 96 90000]⟩ (NewRTCRtpH264Codec 96 90000)).2 = 96 ∧
    getCodec (RegisterCodec ⟨[NewRTCRtpVP8Codec 96 90000]⟩ (NewRTCRtpH264Codec 96 90000)).1 96
      = .ok (NewRTCRtpVP8Codec 96 90000) ∧
    getCodec (RegisterCodec ⟨[NewRTCRtpVP8Codec 96 90000]⟩ (NewRTCRtpH264Codec 96 90000)).1 96
      ≠ .ok (NewRTCRtpH264Codec 96 90000) := by
  refine ⟨rfl, rfl, ?_⟩
  intro h
  have h2 : getCodec (RegisterCodec ⟨[NewRTCRtpVP8Codec 96 90000]⟩
      (NewRTCRtpH264Codec 96 90000)).1 96 = .ok (NewRTCRtpVP8Codec 96 90000) := rfl
  rw [h2] at h
  injection h with h
  have h3 := congrArg RTCRtpCodec.Payloader h
  revert h3
  decide

/-- C5: `getCodec(p)` returns `ErrCodecNotFound` exactly when no registered
codec has payload type `p` (and fails with no other error); so it returns
`ErrCodecNotFound` for every identifier that no `RegisterCodec` call on the
engine returned. -/
theorem getCodec_notFound_iff (m : MediaEngine) (p : Nat) :
    (getCodec m p = .error .ErrCodecNotFound ↔ ∀ c ∈ m.codecs, c.PayloadType ≠ p) ∧
    (∀ e, getCodec m p = .error e → e = .ErrCodecNotFound) ∧
    (∀ cs : List RTCRtpCodec, m = (registerCodecs ⟨[]⟩ cs).1 →
      p ∉ (registerCodecs ⟨[]⟩ cs).2 → getCodec m p = .error .ErrCodecNotFound) := by
  have key : (∀ c ∈ m.codecs, c.PayloadType ≠ p) → getCodec m p = .error .ErrCodecNotFound := by
    intro h
    cases hr : getCodec m p with
    | ok c => exact absurd (getCodecLoop_ok _ _ _ hr).2 (h c (getCodecLoop_ok _ _ _ hr).1)
    | error e => rw [(getCodecLoop_error _ _ _ hr).1]
  refine ⟨⟨fun h => (getCodecLoop_error _ _ _ h).2, key⟩,
    fun e h => (getCodecLoop_error _ _ _ h).1, ?_⟩
  intro cs hm hp
  apply key
  intro c hc hpt
  apply hp
  rw [(registerCodecs_spec cs ⟨[]⟩).2]
  rw [hm, (registerCodecs_spec cs ⟨[]⟩).1] at hc
  exact List.mem_map.2 ⟨c, by simpa using hc, hpt⟩

/-! ## Negotiation matching -/

/-- C2: when the format string parses to `b`, `equalFMTP` answers `true`
exactly when the candidate's map and `b` have the same keys with the same
values (and so does `cmpMapStringString`); it answers `false` otherwise, in
particular whenever the two maps differ in size. -/
theorem equalFMTP_iff_sameAs (p : RTCRtpCodecParameters) (s : Str) (b : StrMap)
    (h : sdpParseFmtpString s = .ok b) :
    (equalFMTP p s = .ok true ↔ p.Parameters.SameAs b) ∧
    (cmpMapStringString p.Parameters b = true ↔ p.Parameters.SameAs b) ∧
    (¬ p.Parameters.SameAs b → equalFMTP p s = .ok false) ∧
    (p.Parameters.len ≠ b.len → equalFMTP p s = .ok false) := by
  have he : equalFMTP p s = .ok (cmpMapStringString p.Parameters b) := by
    unfold equalFMTP
    rw [h]
  have hc := cmpMapStringString_iff p.Parameters b
  refine ⟨?_, hc, ?_, ?_⟩
  · rw [he, ← hc]
    constructor
    · intro h1
      injection h1
    · intro h1
      rw [h1]
  · intro hn
    rw [he]
    cases hv : cmpMapStringString p.Parameters b with
    | false => rfl
    | true => exact absurd (hc.1 hv) hn
  · intro hl
    rw [he]
    unfold cmpMapStringString
    rw [if_pos hl]

theorem matchesSDP_iff (p : RTCRtpCodecParameters) (c : RTCRtpCodec) :
    MatchesSDP p c ↔
      (c.Name = p.Name ∧ c.ClockRate = p.ClockRate ∧ c.Channels = p.Channels) ∧
        equalFMTP p c.SdpFmtpLine = .ok true := by
  unfold MatchesSDP equalFMTP
  cases hp : sdpParseFmtpString c.SdpFmtpLine with
  | error e => simp
  | ok b =>
    have hc := cmpMapStringString_iff p.Parameters b
    constructor
    · rintro ⟨h1, h2, h3, b2, hb, hs⟩
      injection hb with hb
      subst hb
      refine ⟨⟨h1, h2, h3⟩, ?_⟩
      show Except.ok (cmpMapStringString p.Parameters b) = Except.ok true
      rw [hc.2 (fun k => (hs k).symm)]
    · rintro ⟨⟨h1, h2, h3⟩, h4⟩
      refine ⟨h1, h2, h3, b, rfl, fun k => ?_⟩
      have h4 : Except.ok (ε := Err) (cmpMapStringString p.Parameters b) = Except.ok true := h4
      injection h4 with h4
      exact (hc.1 h4 k).symm

theorem getCodecSDPLoop_cons (c : RTCRtpCodec) (rest : List RTCRtpCodec)
    (p : RTCRtpCodecParameters) :
    (MatchesSDP p c → getCodecSDPLoop (c :: rest) p = .ok c) ∧
    (¬ MatchesSDP p c → getCodecSDPLoop (c :: rest) p = getCodecSDPLoop rest p) := by
  rw [matchesSDP_iff]
  constructor
  · rintro ⟨h1, h2⟩
    rw [getCodecSDPLoop, if_pos h1, h2]
    rfl
  · intro hn
    rw [getCodecSDPLoop]
    by_cases h1 : c.Name = p.Name ∧ c.ClockRate = p.ClockRate ∧ c.Channels = p.Channels
    · rw [if_pos h1]
      cases he : equalFMTP p c.SdpFmtpLine with
      | error e => rfl
      | ok ok =>
        cases ok with
        | false => rfl
        | true => exact absurd ⟨h1, he⟩ hn
    · rw [if_neg h1]

/-- C1: `getCodecSDP(p)` returns the first codec, in registration order, that
matches `p` (equal name, clock rate and channels, a format line that parses,
and a parsed map equal to `p.Parameters`); codecs whose format line does not
parse count as non-matches; and it returns `ErrCodecNotFound`, its only error,
exactly when no registered codec matches. -/
theorem getCodecSDP_first_match (m : MediaEngine) (p : RTCRtpCodecParameters) :
    (∀ c, getCodecSDP m p = .ok c ↔
      ∃ pre post, m.codecs = pre ++ c :: post ∧ MatchesSDP p c ∧
        ∀ c2 ∈ pre, ¬ MatchesSDP p c2) ∧
    (getCodecSDP m p = .error .ErrCodecNotFound ↔ ∀ c ∈ m.codecs, ¬ MatchesSDP p c) ∧
    (∀ e, getCodecSDP m p = .error e → e = .ErrCodecNotFound) ∧
    (∀ c ∈ m.codecs, (∀ b, sdpParseFmtpString c.SdpFmtpLine ≠ .ok b) → ¬ MatchesSDP p c) := by
  obtain ⟨codecs⟩ := m
  unfold getCodecSDP
  simp only
  refine ⟨?_, ?_, ?_, ?_⟩
  · induction codecs with
    | nil =>
      intro c
      simp [getCodecSDPLoop]
    | cons c0 rest ih =>
      intro c
      by_cases hm : MatchesSDP p c0
      · rw [(getCodecSDPLoop_cons c0 rest p).1 hm]
        constructor
        · intro h
          injection h with h
          subst h
          exact ⟨[], rest, rfl, hm, fun c2 h2 => absurd h2 (List.not_mem_nil c2)⟩
        · rintro ⟨pre, post, hl, _, hpre⟩
          cases pre with
          | nil =>
            simp only [List.nil_append, List.cons.injEq] at hl
            rw [hl.1]
          | cons c1 pre2 =>
            simp only [List.cons_append, List.cons.injEq] at hl
            exact absurd (hl.1 ▸ hm) (hpre c1 (List.mem_cons_self _ _))
      · rw [(getCodecSDPLoop_cons c0 rest p).2 hm, ih c]
        constructor
        · rintro ⟨pre, post, hl, hc, hpre⟩
          refine ⟨c0 :: pre, post, by rw [hl]; rfl, hc, fun c2 h2 => ?_⟩
          rcases List.mem_cons.1 h2 with heq | hmem
          · rw [heq]; exact hm
          · exact hpre c2 hmem
        · rintro ⟨pre, post, hl, hc, hpre⟩
          cases pre with
          | nil =>
            simp only [List.nil_append, List.cons.injEq] at hl
            exact absurd (hl.1 ▸ hc) hm
          | cons c1 pre2 =>
            simp only [List.cons_append, List.cons.injEq] at hl
            exact ⟨pre2, post, hl.2, hc, fun c2 h2 => hpre c2 (List.mem_cons_of_mem _ h2)⟩
  · induction codecs with
    | nil => simp [getCodecSDPLoop]
    | cons c0 rest ih =>
      by_cases hm : MatchesSDP p c0
      · rw [(getCodecSDPLoop_cons c0 rest p).1 hm]
        constructor
        · intro h
          cases h
        · intro h
          exact absurd hm (h c0 (List.mem_cons_self _ _))
      · rw [(getCodecSDPLoop_cons c0 rest p).2 hm, ih]
        constructor
        · intro h c hc
          rcases List.mem_cons.1 hc with heq | hmem
          · rw [heq]; exact hm
          · exact h c hmem
        · intro h c hc
          exact h c (List.mem_cons_of_mem _ hc)
  · induction codecs with
    | nil =>
      intro e h
      simp only [getCodecSDPLoop] at h
      injection h with h
      exact h.symm
    | cons c0 rest ih =>
      intro e h
      by_cases hm : MatchesSDP p c0
      · rw [(getCodecSDPLoop_cons c0 rest p).1 hm] at h
        cases h
      · rw [(getCodecSDPLoop_cons c0 rest p).2 hm] at h
        exact ih e h
  · rintro c _ hnp ⟨_, _, _, b, hb, _⟩
    exact hnp b hb

/-- C2 witness: the map a=1, b=2 against the format string "b=2;a=1". -/
theorem equalFMTP_iff_sameAs_witness :
    equalFMTP (paramsOnly exampleParams) "b=2;a=1".toList = .ok true ↔
      (paramsOnly exampleParams).Parameters.SameAs exampleParams :=
  (equalFMTP_iff_sameAs (paramsOnly exampleParams) "b=2;a=1".toList exampleParams rfl).1

/-! ## Format parameter strings -/

theorem sdpParseFmtpStringLoop_fails_iff (params : List Str) : ∀ res : StrMap,
    (∃ e, sdpParseFmtpStringLoop params res = .error e) ↔
      ∃ seg ∈ params, stringsTrimSpace seg ≠ [] ∧ '=' ∉ seg := by
  induction params with
  | nil =>
    intro res
    simp [sdpParseFmtpStringLoop]
  | cons param rest ih =>
    intro res
    by_cases ht : (stringsTrimSpace param).length = 0
    · rw [sdpParseFmtpStringLoop, if_pos ht, ih res]
      have hnil : stringsTrimSpace param = [] := List.length_eq_zero.1 ht
      constructor
      · rintro ⟨seg, hs, h⟩
        exact ⟨seg, List.mem_cons_of_mem _ hs, h⟩
      · rintro ⟨seg, hs, h⟩
        rcases List.mem_cons.1 hs with e | e
        · rw [e] at h
          exact absurd hnil h.1
        · exact ⟨seg, e, h⟩
    · have hne : stringsTrimSpace param ≠ [] := fun e => ht (by rw [e]; rfl)
      by_cases heq : '=' ∈ param
      · obtain ⟨p0, p1, more, hs⟩ := stringsSplit_of_mem param '=' heq
        rw [sdpParseFmtpStringLoop, if_neg ht, hs]
        simp only
        rw [ih]
        constructor
        · rintro ⟨seg, hs, h⟩
          exact ⟨seg, List.mem_cons_of_mem _ hs, h⟩
        · rintro ⟨seg, hs, h⟩
          rcases List.mem_cons.1 hs with e | e
          · rw [e] at h
            exact absurd heq h.2
          · exact ⟨seg, e, h⟩
      · rw [sdpParseFmtpStringLoop, if_neg ht, stringsSplit_of_not_mem param '=' heq]
        simp only
        constructor
        · intro _
          exact ⟨param, List.mem_cons_self _ _, hne, heq⟩
        · intro _
          exact ⟨_, rfl⟩

/-- C9: `sdpParseFmtpString(s)` fails exactly when some ';'-separated segment
of `s` is non-empty after trimming white space and contains no '='; blank
segments never make it fail. -/
theorem sdpParseFmtpString_fails_iff (s : Str) :
    (∃ e, sdpParseFmtpString s = .error e) ↔
      ∃ seg ∈ stringsSplit s ';', stringsTrimSpace seg ≠ [] ∧ '=' ∉ seg :=
  sdpParseFmtpStringLoop_fails_iff (stringsSplit s ';') StrMap.empty

/-- C9 witness: the segment "novalue" makes "vbr=on;novalue" fail. -/
theorem sdpParseFmtpString_fails_witness :
    ∃ e, sdpParseFmtpString "vbr=on; ;novalue".toList = .error e :=
  (sdpParseFmtpString_fails_iff "vbr=on; ;novalue".toList).2
    ⟨"novalue".toList, by decide, by decide, by decide⟩

/-! ## rtpmap lines -/

theorem line_split_at_space (line : Str) (h : ' ' ∈ line) :
    line = fieldBeforeSpace line ++ ' ' :: fieldAfterSpace line ∧
      ' ' ∉ fieldBeforeSpace line := by
  unfold fieldBeforeSpace fieldAfterSpace
  induction line with
  | nil => exact absurd h (List.not_mem_nil _)
  | cons c cs ih =>
    by_cases hc : c = ' '
    · subst hc
      simp [List.takeWhile, List.dropWhile]
    · have hcs : ' ' ∈ cs := by
        rcases List.mem_cons.1 h with e | e
        · exact absurd e.symm hc
        · exact e
      have hp : decide (c ≠ ' ') = true := by simp [hc]
      obtain ⟨h1, h2⟩ := ih hcs
      rw [List.takeWhile_cons, List.dropWhile_cons, hp]
      simp only [if_true, List.cons_append]
      constructor
      · rw [← h1]
      · intro hm
        rcases List.mem_cons.1 hm with e | e
        · exact hc e.symm
        · exact h2 e

theorem sdpParseRtpMap_at (key a b : Str) (ha : ' ' ∉ a) :
    sdpParseRtpMap ⟨key, a ++ ' ' :: b⟩ =
      if a = [] then .error (.rtpmapAttributeTooShort (a ++ ' ' :: b))
      else
        match strconvParseUint a 8 with
        | none => .error (.invalidPayloadType a)
        | some payloadTypeRaw =>
          match stringsSplit b '/' with
          | name :: clockrateStr :: more =>
            match strconvParseUint clockrateStr 32 with
            | none => .error (.invalidClockrate clockrateStr)
            | some clockrate =>
              let mk := fun (channels : Nat) =>
                ({ Name := name, MimeType := [], PayloadType := payloadTypeRaw % 2 ^ 8,
                   ClockRate := clockrate % 2 ^ 32, Maxptime := 0, Ptime := 0,
                   Channels := channels % 2 ^ 32, RtcpFeedback := [],
                   Parameters := StrMap.empty } : RTCRtpCodecParameters)
              match more with
              | [channelsStr] =>
                match strconvParseUint channelsStr 32 with
                | none => .error (.invalidChannels channelsStr)
                | some channels => .ok (mk channels)
              | _ => .ok (mk 0)
          | _ => .error (.invalidCodec b) := by
  unfold sdpParseRtpMap
  simp only [stringsIndex_append a b ' ' ha, sliceTo_append, sliceFrom_append]
  by_cases hne : a = []
  · subst hne
    simp
  · have hlen : ¬ ((a.length : Int) < 1) := by
      have : 0 < a.length := List.length_pos.2 hne
      omega
    rw [if_neg hlen, if_neg hne]

/-- C6: for a payload type below 256, a name without '/', and a clock rate
and channel count below 2^32, `sdpParseRtpMap` on "pt name/rate" yields these
fields with channels 0, and on "pt name/rate/ch" the same with channels ch. -/
theorem sdpParseRtpMap_wellFormed (key : Str) (pt : Nat) (n : Str) (r ch : Nat)
    (hpt : pt < 256) (hn : '/' ∉ n) (hr : r < 2 ^ 32) (hch : ch < 2 ^ 32) :
    sdpParseRtpMap ⟨key, formatUint pt ++ ' ' :: (n ++ '/' :: formatUint r)⟩ =
      .ok { Name := n, MimeType := [], PayloadType := pt, ClockRate := r, Maxptime := 0,
            Ptime := 0, Channels := 0, RtcpFeedback := [], Parameters := StrMap.empty } ∧
    sdpParseRtpMap ⟨key, formatUint pt ++ ' ' :: (n ++ '/' :: (formatUint r ++ '/' ::
        formatUint ch))⟩ =
      .ok { Name := n, MimeType := [], PayloadType := pt, ClockRate := r, Maxptime := 0,
            Ptime := 0, Channels := ch, RtcpFeedback := [], Parameters := StrMap.empty } := by
  obtain ⟨p1, p2, _, p4⟩ := formatUint_spec pt
  obtain ⟨_, _, r3, r4⟩ := formatUint_spec r
  obtain ⟨_, _, c3, c4⟩ := formatUint_spec ch
  have hp8 : strconvParseUint (formatUint pt) 8 = some pt := p4 8 hpt
  have hpm : pt % 2 ^ 8 = pt := Nat.mod_eq_of_lt hpt
  have hrm : r % 2 ^ 32 = r := Nat.mod_eq_of_lt hr
  have hcm : ch % 2 ^ 32 = ch := Nat.mod_eq_of_lt hch
  constructor
  · rw [sdpParseRtpMap_at _ _ _ p2, if_neg p1, hp8, stringsSplit_append n _ '/' hn,
      stringsSplit_of_not_mem _ '/' r3]
    simp only [r4 32 hr, hpm, hrm, Nat.zero_mod]
  · rw [sdpParseRtpMap_at _ _ _ p2, if_neg p1, hp8, stringsSplit_append n _ '/' hn,
      stringsSplit_append _ _ '/' r3, stringsSplit_of_not_mem _ '/' c3]
    simp only [r4 32 hr, c4 32 hch, hpm, hrm, hcm]

/-- C6 witness: "111 opus/48000" and "111 opus/48000/2". -/
theorem sdpParseRtpMap_wellFormed_witness :
    sdpParseRtpMap ⟨"rtpmap".toList, "111 opus/48000".toList⟩ =
      .ok { Name := "opus".toList, MimeType := [], PayloadType := 111, ClockRate := 48000,
            Maxptime := 0, Ptime := 0, Channels := 0, RtcpFeedback := [],
            Parameters := StrMap.empty } ∧
    sdpParseRtpMap ⟨"rtpmap".toList, "111 opus/48000/2".toList⟩ =
      .ok { Name := "opus".toList, MimeType := [], PayloadType := 111, ClockRate := 48000,
            Maxptime := 0, Ptime := 0, Channels := 2, RtcpFeedback := [],
            Parameters := StrMap.empty } :=
  sdpParseRtpMap_wellFormed "rtpmap".toList 111 "opus".toList 48000 2
    (by decide) (by decide) (by decide) (by decide)

/-- C7 (as amended): `sdpParseRtpMap` fails on every malformed line: no
space, a payload type that is not an 8-bit decimal, no '/' after the name, a
clock rate that is not a 32-bit decimal, or exactly three '/'-separated parts
with a third part that is not a 32-bit decimal. -/
theorem sdpParseRtpMap_malformed (key line : Str) (h : RtpMapMalformed line) :
    ∃ e, sdpParseRtpMap ⟨key, line⟩ = .error e := by
  by_cases hs : ' ' ∈ line
  · obtain ⟨hl, ha⟩ := line_split_at_space line hs
    have heq : sdpParseRtpMap ⟨key, line⟩ =
        sdpParseRtpMap ⟨key, fieldBeforeSpace line ++ ' ' :: fieldAfterSpace line⟩ := by
      rw [← hl]
    rw [heq, sdpParseRtpMap_at _ _ _ ha]
    unfold RtpMapMalformed at h
    by_cases hne : fieldBeforeSpace line = []
    · rw [if_pos hne]
      exact ⟨_, rfl⟩
    · rw [if_neg hne]
      cases hp : strconvParseUint (fieldBeforeSpace line) 8 with
      | none => exact ⟨_, rfl⟩
      | some raw =>
        by_cases hslash : '/' ∈ fieldAfterSpace line
        · obtain ⟨name, clk, more, hsp⟩ := stringsSplit_of_mem _ '/' hslash
          rw [hsp] at h ⊢
          simp only
          cases hc : strconvParseUint clk 32 with
          | none => exact ⟨_, rfl⟩
          | some r =>
            simp only
            match more, h with
            | [], h =>
              simp [hs, hp, hslash, hc] at h
            | [chs], h =>
              cases hch : strconvParseUint chs 32 with
              | none =>
                simp only [hch]
                exact ⟨_, rfl⟩
              | some c =>
                simp [hs, hp, hslash, hc, hch] at h
            | _ :: _ :: _, h =>
              simp [hs, hp, hslash, hc] at h
        · rw [stringsSplit_of_not_mem _ '/' hslash]
          exact ⟨_, rfl⟩
  · unfold sdpParseRtpMap
    simp only [stringsIndex_of_not_mem line ' ' hs]
    exact ⟨_, rfl⟩

/-- C7 witness: "bad" has no space and fails. -/
theorem sdpParseRtpMap_malformed_witness :
    ∃ e, sdpParseRtpMap ⟨"rtpmap".toList, "bad".toList⟩ = .error e :=
  sdpParseRtpMap_malformed "rtpmap".toList "bad".toList (Or.inl (by decide))

/-- C7 counterexample: in "96 VP8/90000/x/y" the text after the second '/' is
"x/y", which is not a decimal number (nor is its first part "x"), and yet
`sdpParseRtpMap` succeeds, with channels 0. -/
theorem sdpParseRtpMap_channels_counterexample :
    "96 VP8/90000/x/y".toList = "96 VP8/90000/".toList ++ "x/y".toList ∧
    strconvParseUint "x/y".toList 32 = none ∧
    strconvParseUint "x".toList 32 = none ∧
    sdpParseRtpMap ⟨"rtpmap".toList, "96 VP8/90000/x/y".toList⟩ =
      .ok { Name := "VP8".toList, MimeType := [], PayloadType := 96, ClockRate := 90000,
            Maxptime := 0, Ptime := 0, Channels := 0, RtcpFeedback := [],
            Parameters := StrMap.empty } := by
  refine ⟨by decide, by decide, by decide, rfl⟩

/-! ## Format strings built from key/value pairs -/

theorem stringsSplit_joinSegments (sep : Char) (segs : List Str)
    (h : ∀ x ∈ segs, sep ∉ x) (hne : segs ≠ []) :
    stringsSplit (joinSegments sep segs) sep = segs := by
  induction segs with
  | nil => exact absurd rfl hne
  | cons x rest ih =>
    cases rest with
    | nil => exact stringsSplit_of_not_mem x sep (h x (List.mem_cons_self _ _))
    | cons y rest2 =>
      rw [joinSegments, stringsSplit_append x _ sep (h x (List.mem_cons_self _ _)),
        ih (fun z hz => h z (List.mem_cons_of_mem _ hz)) (List.cons_ne_nil _ _)]

theorem sdpParseFmtpStringLoop_pairs (l : List (Str × Str))
    (hl : ∀ e ∈ l, ('=' ∉ e.1 ∧ NoOuterSpace e.1) ∧ ('=' ∉ e.2 ∧ NoOuterSpace e.2)) :
    ∀ res : StrMap,
      sdpParseFmtpStringLoop (l.map (fun e => e.1 ++ '=' :: e.2)) res =
        .ok (l.foldl (fun m e => m.set e.1 e.2) res) := by
  induction l with
  | nil =>
    intro res
    rfl
  | cons e rest ih =>
    intro res
    obtain ⟨⟨hk1, hk2⟩, ⟨hv1, hv2⟩⟩ := hl e (List.mem_cons_self _ _)
    have hne : ¬ (stringsTrimSpace (e.1 ++ '=' :: e.2)).length = 0 := by
      intro h0
      exact stringsTrimSpace_ne_nil_of_mem (e.1 ++ '=' :: e.2) '=' (by simp) (by decide)
        (List.length_eq_zero.1 h0)
    rw [List.map_cons, sdpParseFmtpStringLoop, if_neg hne, stringsSplit_append e.1 e.2 '=' hk1,
      stringsSplit_of_not_mem e.2 '=' hv1]
    simp only
    rw [stringsTrimSpace_eq_self e.1 hk2.1 hk2.2, stringsTrimSpace_eq_self e.2 hv2.1 hv2.2,
      ih (fun e2 h2 => hl e2 (List.mem_cons_of_mem _ h2))]
    rfl

theorem sdpParseFmtpString_fmtpLine (l : List (Str × Str))
    (hl : ∀ e ∈ l, FmtpToken e.1 ∧ FmtpToken e.2) :
    sdpParseFmtpString (fmtpLine l) = .ok (l.foldl (fun m e => m.set e.1 e.2) StrMap.empty) := by
  have hl2 : ∀ e ∈ l, ('=' ∉ e.1 ∧ NoOuterSpace e.1) ∧ ('=' ∉ e.2 ∧ NoOuterSpace e.2) :=
    fun e he => ⟨⟨(hl e he).1.2.1, (hl e he).1.2.2⟩, ⟨(hl e he).2.2.1, (hl e he).2.2.2⟩⟩
  unfold sdpParseFmtpString fmtpLine
  cases hcase : l with
  | nil => rfl
  | cons e rest =>
    rw [← hcase, stringsSplit_joinSegments ';', sdpParseFmtpStringLoop_pairs l hl2]
    · intro x hx
      obtain ⟨e2, he2, rfl⟩ := List.mem_map.1 hx
      intro hmem
      rcases List.mem_append.1 hmem with h1 | h1
      · exact (hl e2 he2).1.1 h1
      · rcases List.mem_cons.1 h1 with h2 | h2
        · revert h2
          decide
        · exact (hl e2 he2).2.1 h2
    · rw [hcase]
      simp

theorem get_foldl_set (l : List (Str × Str)) (hnd : (l.map Prod.fst).Nodup) (k v : Str) :
    ∀ res : StrMap, (l.foldl (fun m e => m.set e.1 e.2) res).get k = some v ↔
      ((k, v) ∈ l ∨ (k ∉ l.map Prod.fst ∧ res.get k = some v)) := by
  induction l with
  | nil =>
    intro res
    simp
  | cons e rest ih =>
    intro res
    obtain ⟨ek, ev⟩ := e
    rw [List.map_cons, List.nodup_cons] at hnd
    rw [List.foldl_cons, ih hnd.2, StrMap.get_set]
    by_cases hk : k = ek
    · subst hk
      have hnot : (k, v) ∉ rest := fun hm => hnd.1 (List.mem_map.2 ⟨(k, v), hm, rfl⟩)
      have hin : ¬ k ∉ List.map Prod.fst ((k, ev) :: rest) := by simp
      constructor
      · rintro (h | ⟨_, h2⟩)
        · exact absurd h hnot
        · left
          rw [if_pos rfl] at h2
          injection h2 with h2
          have h3 : ev = v := h2
          rw [h3]
          exact List.mem_cons_self _ _
      · rintro (h | ⟨h, _⟩)
        · rcases List.mem_cons.1 h with h1 | h1
          · right
            refine ⟨hnd.1, ?_⟩
            rw [if_pos rfl]
            injection h1 with _ h1
            show some ev = some v
            rw [h1]
          · exact absurd h1 hnot
        · exact absurd h hin
    · have hne : (k, v) ≠ (ek, ev) := fun h => hk (by injection h)
      have hmem : k ∉ List.map Prod.fst ((ek, ev) :: rest) ↔ k ∉ List.map Prod.fst rest := by
        simp [hk]
      rw [if_neg hk, hmem, List.mem_cons]
      simp only [hne, false_or]

theorem sameAs_foldl_set (m : StrMap) (l : List (Str × Str)) (hperm : l.Perm m.entries) :
    m.SameAs (l.foldl (fun m e => m.set e.1 e.2) StrMap.empty) := by
  have hnd : (l.map Prod.fst).Nodup := (hperm.map Prod.fst).nodup_iff.2 m.nodup
  intro k
  apply Option.ext
  intro v
  simp only [Option.mem_def]
  rw [get_foldl_set l hnd k v StrMap.empty, m.get_eq_some_iff, StrMap.get_empty]
  simp only [and_false, or_false, reduceCtorEq]
  exact hperm.mem_iff.symm

/-- C3: for a map whose keys and values contain no ';' or '=' and no leading
or trailing white space, and any ordering `l` of its entries, `equalFMTP`
answers true, without error, on "k1=v1;...;kn=vn" written in that order. -/
theorem equalFMTP_order_independent (p : RTCRtpCodecParameters) (l : List (Str × Str))
    (hperm : l.Perm p.Parameters.entries)
    (hclean : ∀ e ∈ p.Parameters.entries, FmtpToken e.1 ∧ FmtpToken e.2) :
    equalFMTP p (fmtpLine l) = .ok true := by
  have hl : ∀ e ∈ l, FmtpToken e.1 ∧ FmtpToken e.2 :=
    fun e he => hclean e (hperm.mem_iff.1 he)
  unfold equalFMTP
  rw [sdpParseFmtpString_fmtpLine l hl]
  simp only
  rw [(cmpMapStringString_iff _ _).2 (sameAs_foldl_set p.Parameters l hperm)]

/-- C3 witness: the map a=1, b=2 against "b=2;a=1". -/
theorem equalFMTP_order_independent_witness :
    equalFMTP (paramsOnly exampleParams) "b=2;a=1".toList = .ok true :=
  equalFMTP_order_independent (paramsOnly exampleParams)
    [("b".toList, "2".toList), ("a".toList, "1".toList)] (by decide) (by decide)

theorem sdpParseFmtp_at (key pt rest : Str) (hne : pt ≠ []) (hsp : ' ' ∉ pt) :
    sdpParseFmtp ⟨key, pt ++ ' ' :: rest⟩ = sdpParseFmtpString rest := by
  unfold sdpParseFmtp
  simp only [stringsIndex_append pt rest ' ' hsp, sliceFrom_append]
  have hlen : ¬ ((pt.length : Int) < 1) := by
    have : 0 < pt.length := List.length_pos.2 hne
    omega
  rw [if_neg hlen]

theorem sdpParseFmtp_pairs (key pt : Str) (l : List (Str × Str)) (hne : pt ≠ [])
    (hsp : ' ' ∉ pt) (hnd : (l.map Prod.fst).Nodup)
    (hl : ∀ e ∈ l, FmtpToken e.1 ∧ FmtpToken e.2) :
    ∃ m, sdpParseFmtp ⟨key, pt ++ ' ' :: fmtpLine l⟩ = .ok m ∧
      ∀ k v, m.get k = some v ↔ (k, v) ∈ l := by
  refine ⟨l.foldl (fun m e => m.set e.1 e.2) StrMap.empty, ?_, fun k v => ?_⟩
  · rw [sdpParseFmtp_at key pt _ hne hsp, sdpParseFmtpString_fmtpLine l hl]
  · rw [get_foldl_set l hnd k v StrMap.empty, StrMap.get_empty]
    simp

/-- C8 at the failing input: the H264 parameter
"sprop-parameter-sets=Z0IAH5WoFAFuQA==,aM48gA==" (no ';' in the value) is
parsed to the value cut at its first '=', not to the value that was sent. -/
theorem sdpParseFmtp_value_with_equals :
    ∃ m, sdpParseFmtp ⟨"fmtp".toList,
        "96 sprop-parameter-sets=Z0IAH5WoFAFuQA==,aM48gA==".toList⟩ = .ok m ∧
      m.get "sprop-parameter-sets".toList = some "Z0IAH5WoFAFuQA".toList ∧
      m.get "sprop-parameter-sets".toList ≠ some "Z0IAH5WoFAFuQA==,aM48gA==".toList := by
  refine ⟨_, rfl, ?_, ?_⟩ <;> decide

/-! ## Correlation of the attributes of a media section -/

theorem matchLoop_ok {σ α : Type} (parse : Attribute → Except Err α) (upd : σ → α → σ)
    (p : σ → Attribute → Except Err σ)
    (hp : ∀ st a, p st a = (parse a).map (upd st))
    (key pfx : Str) (attrs : List Attribute) : ∀ st st2 : σ,
    sdpMatchAttributePrefixFuncLoop attrs key pfx p st = .ok st2 →
    ∃ xs, List.Forall₂ (fun a x => parse a = .ok x)
        (attrs.filter (fun a => decide (a.Key = key) && stringsHasPrefix a.Value pfx)) xs ∧
      st2 = xs.foldl upd st := by
  induction attrs with
  | nil =>
    intro st st2 h
    simp only [sdpMatchAttributePrefixFuncLoop] at h
    injection h with h
    exact ⟨[], List.Forall₂.nil, h.symm⟩
  | cons a rest ih =>
    intro st st2 h
    by_cases hc : a.Key ≠ key ∨ (!stringsHasPrefix a.Value pfx) = true
    · rw [sdpMatchAttributePrefixFuncLoop, if_pos hc] at h
      have hf : (decide (a.Key = key) && stringsHasPrefix a.Value pfx) = false := by
        rcases hc with h1 | h1
        · simp [h1]
        · simp only [Bool.not_eq_true'] at h1
          simp [h1]
      rw [List.filter_cons, hf]
      exact ih st st2 h
    · rw [sdpMatchAttributePrefixFuncLoop, if_neg hc, hp] at h
      have hf : (decide (a.Key = key) && stringsHasPrefix a.Value pfx) = true := by
        simp only [not_or, not_not, Bool.not_eq_true', Bool.not_eq_false] at hc
        simp [hc.1, hc.2]
      rw [List.filter_cons, hf]
      cases hx : parse a with
      | error e =>
        rw [hx] at h
        cases h
      | ok x =>
        rw [hx] at h
        simp only [Except.map] at h
        obtain ⟨xs, h1, h2⟩ := ih (upd st x) st2 h
        exact ⟨x :: xs, List.Forall₂.cons hx h1, h2⟩

theorem forall₂_getLast {α β : Type} (R : α → β → Prop) (as : List α) (xs : List β)
    (h : List.Forall₂ R as xs) :
    match as.getLast? with
    | none => xs = []
    | some f => ∃ x, xs.getLast? = some x ∧ R f x := by
  induction h with
  | nil => rfl
  | @cons a x as2 xs2 hR h2 ih =>
    cases as2 with
    | nil =>
      cases h2
      exact ⟨x, rfl, hR⟩
    | cons a2 as3 =>
      cases xs2 with
      | nil => cases h2
      | cons x2 xs3 =>
        rw [List.getLast?_cons_cons]
        rw [List.getLast?_cons_cons]
        exact ih

theorem forall₂_append {α β : Type} (R : α → β → Prop) (as bs : List α) (xs ys : List β)
    (h1 : List.Forall₂ R as xs) (h2 : List.Forall₂ R bs ys) :
    List.Forall₂ R (as ++ bs) (xs ++ ys) := by
  induction h1 with
  | nil => exact h2
  | cons hR _ ih => exact List.Forall₂.cons hR ih

theorem foldl_set_parameters (xs : List StrMap) : ∀ c : RTCRtpCodecParameters,
    xs.foldl (fun c ps => { c with Parameters := ps }) c =
      { c with Parameters := xs.getLast?.getD c.Parameters } := by
  induction xs with
  | nil => intro c; rfl
  | cons x rest ih =>
    intro c
    rw [List.foldl_cons, ih]
    cases rest with
    | nil => rfl
    | cons y rest2 =>
      rw [List.getLast?_cons_cons]
      cases hz : (y :: rest2).getLast? with
      | none => exact absurd (List.getLast?_eq_none_iff.1 hz) (List.cons_ne_nil _ _)
      | some z => rfl

theorem foldl_append_feedback (xs : List RTCRtcpFeedback) : ∀ c : RTCRtpCodecParameters,
    xs.foldl (fun c fb => { c with RtcpFeedback := c.RtcpFeedback ++ [fb] }) c =
      { c with RtcpFeedback := c.RtcpFeedback ++ xs } := by
  induction xs with
  | nil => intro c; simp
  | cons x rest ih =>
    intro c
    rw [List.foldl_cons, ih]
    simp

theorem foldl_append_codecs (xs : List RTCRtpCodecParameters) : ∀ p : RTCRtpParameters,
    xs.foldl (fun p c => { p with Codecs := p.Codecs ++ [c] }) p =
      { p with Codecs := p.Codecs ++ xs } := by
  induction xs with
  | nil => intro p; simp
  | cons x rest ih =>
    intro p
    rw [List.foldl_cons, ih]
    simp

theorem foldl_append_extensions (xs : List RTCRtpHeaderExtensionParameters) :
    ∀ p : RTCRtpParameters,
    xs.foldl (fun p e => { p with HeaderExtensions := p.HeaderExtensions ++ [e] }) p =
      { p with HeaderExtensions := p.HeaderExtensions ++ xs } := by
  induction xs with
  | nil => intro p; simp
  | cons x rest ih =>
    intro p
    rw [List.foldl_cons, ih]
    simp

theorem sdpParseRtpMap_fresh (a : Attribute) (c0 : RTCRtpCodecParameters)
    (h : sdpParseRtpMap a = .ok c0) : c0.Parameters = StrMap.empty ∧ c0.RtcpFeedback = [] := by
  unfold sdpParseRtpMap at h
  simp only at h
  split at h <;> (try split at h) <;> (try split at h) <;> (try split at h) <;>
    (try split at h) <;> (try split at h) <;> (cases h; try exact ⟨rfl, rfl⟩)

theorem sdpRtpFmtpParser_eq (d : MediaDescription) (p : RTCRtpCodecParameters)
    (a : Attribute) :
    sdpRtpFmtpParser d p a =
      (sdpParseFmtp a).map (fun ps => { p with Parameters := ps }) := by
  unfold sdpRtpFmtpParser
  cases sdpParseFmtp a <;> rfl

theorem sdpRtpRtcpFeedbackParser_eq (d : MediaDescription) (p : RTCRtpCodecParameters)
    (a : Attribute) :
    sdpRtpRtcpFeedbackParser d p a =
      (sdpParseRtcpFeedback a).map (fun fb => { p with RtcpFeedback := p.RtcpFeedback ++ [fb] }) := by
  unfold sdpRtpRtcpFeedbackParser
  cases sdpParseRtcpFeedback a <;> rfl

theorem sdpExtmapParser_eq (d : MediaDescription) (p : RTCRtpParameters) (a : Attribute) :
    sdpExtmapParser d p a =
      (sdpParseExtmap a).map
        (fun e => { p with HeaderExtensions := p.HeaderExtensions ++ [e] }) := by
  unfold sdpExtmapParser
  cases sdpParseExtmap a <;> rfl

theorem sdpRtpCodecParser_eq (d : MediaDescription) (p : RTCRtpParameters) (a : Attribute) :
    sdpRtpCodecParser d p a =
      (correlatedCodec d a).map (fun c => { p with Codecs := p.Codecs ++ [c] }) := by
  unfold sdpRtpCodecParser correlatedCodec
  cases h1 : sdpParseRtpMap a with
  | error e => rfl
  | ok codec =>
    simp only
    cases h2 : sdpMatchAttributePrefixFunc d "fmtp".toList (formatUint codec.PayloadType ++ [' '])
        (sdpRtpFmtpParser d) codec with
    | error e => rfl
    | ok codec1 =>
      simp only
      cases h3 : sdpMatchAttributePrefixFunc d "rtcp-fb".toList
          (formatUint codec1.PayloadType ++ [' ']) (sdpRtpRtcpFeedbackParser d) codec1 with
      | error e => rfl
      | ok codec2 => rfl

theorem correlatedCodec_ok (d : MediaDescription) (a : Attribute) (c : RTCRtpCodecParameters)
    (h : correlatedCodec d a = .ok c) : CodecFor d a c := by
  unfold correlatedCodec at h
  cases h1 : sdpParseRtpMap a with
  | error e =>
    rw [h1] at h
    cases h
  | ok c0 =>
    rw [h1] at h
    simp only at h
    obtain ⟨hpar, hfb⟩ := sdpParseRtpMap_fresh a c0 h1
    cases h2 : sdpMatchAttributePrefixFunc d "fmtp".toList (formatUint c0.PayloadType ++ [' '])
        (sdpRtpFmtpParser d) c0 with
    | error e =>
      rw [h2] at h
      cases h
    | ok c1 =>
      rw [h2] at h
      simp only at h
      obtain ⟨xs, hx1, hx2⟩ := matchLoop_ok sdpParseFmtp
        (fun (c : RTCRtpCodecParameters) ps => { c with Parameters := ps })
        (sdpRtpFmtpParser d) (sdpRtpFmtpParser_eq d) "fmtp".toList
        (formatUint c0.PayloadType ++ [' ']) d.Attributes c0 c1 h2
      rw [foldl_set_parameters] at hx2
      have hpt : c1.PayloadType = c0.PayloadType := by rw [hx2]
      rw [hpt] at h
      cases h3 : sdpMatchAttributePrefixFunc d "rtcp-fb".toList
          (formatUint c0.PayloadType ++ [' ']) (sdpRtpRtcpFeedbackParser d) c1 with
      | error e =>
        rw [h3] at h
        cases h
      | ok c2 =>
        rw [h3] at h
        simp only at h
        injection h with h
        subst h
        obtain ⟨ys, hy1, hy2⟩ := matchLoop_ok sdpParseRtcpFeedback
          (fun (c : RTCRtpCodecParameters) fb => { c with RtcpFeedback := c.RtcpFeedback ++ [fb] })
          (sdpRtpRtcpFeedbackParser d) (sdpRtpRtcpFeedbackParser_eq d) "rtcp-fb".toList
          (formatUint c0.PayloadType ++ [' ']) d.Attributes c1 c2 h3
        rw [foldl_append_feedback] at hy2
        have hlast := forall₂_getLast _ _ _ hx1
        refine ⟨c0, h1, ?_, ?_, ?_, ?_, ?_, ?_, ?_, ?_, ?_⟩
        · unfold attributesWith
          cases hg : (d.Attributes.filter (fun a => decide (a.Key = "fmtp".toList) &&
              stringsHasPrefix a.Value (formatUint c0.PayloadType ++ [' ']))).getLast? with
          | none =>
            rw [hg] at hlast
            simp only at hlast
            rw [hy2, hx2, hlast]
            exact hpar
          | some f =>
            rw [hg] at hlast
            obtain ⟨x, hxl, hxp⟩ := hlast
            simp only
            rw [hy2, hx2, hxl]
            exact hxp
        · unfold attributesWith
          rw [hy2, hx2]
          simp only [hfb, List.nil_append]
          exact hy1
        all_goals rw [hy2, hx2]

theorem sdpParseRtpParametersFormats_ok (d : MediaDescription) (formats : List Str) :
    ∀ res res2 : RTCRtpParameters,
    sdpParseRtpParametersFormats d formats res = .ok res2 →
    ∃ cs, List.Forall₂ (CodecFor d)
        (formats.flatMap (fun f => attributesWith d "rtpmap".toList (f ++ [' ']))) cs ∧
      res2 = { res with Codecs := res.Codecs ++ cs } := by
  induction formats with
  | nil =>
    intro res res2 h
    simp only [sdpParseRtpParametersFormats] at h
    injection h with h
    exact ⟨[], List.Forall₂.nil, by rw [← h]; simp⟩
  | cons format rest ih =>
    intro res res2 h
    rw [sdpParseRtpParametersFormats] at h
    cases h1 : sdpMatchAttributePrefixFunc d "rtpmap".toList (format ++ [' '])
        (sdpRtpCodecParser d) res with
    | error e =>
      rw [h1] at h
      cases h
    | ok res1 =>
      rw [h1] at h
      simp only at h
      obtain ⟨xs, hx1, hx2⟩ := matchLoop_ok (correlatedCodec d)
        (fun (p : RTCRtpParameters) c => { p with Codecs := p.Codecs ++ [c] })
        (sdpRtpCodecParser d) (sdpRtpCodecParser_eq d) "rtpmap".toList
        (format ++ [' ']) d.Attributes res res1 h1
      rw [foldl_append_codecs] at hx2
      obtain ⟨cs, hc1, hc2⟩ := ih res1 res2 h
      refine ⟨xs ++ cs, ?_, ?_⟩
      · rw [List.flatMap_cons]
        exact forall₂_append _ _ _ _ _
          (hx1.imp (fun a c hac => correlatedCodec_ok d a c hac)) hc1
      · rw [hc2, hx2]
        simp

/-- C10: when `sdpParseRtpParameters` succeeds, `Codecs` lists, for each
format of the media line in order and each rtpmap attribute (in attribute
order) whose value starts with the format and a space, the codec parsed by
`sdpParseRtpMap` with `Parameters` the parse of the last fmtp attribute that
starts with the codec's decimal payload type and a space (unset when there is
none) and `RtcpFeedback` the parses of all rtcp-fb attributes with that start;
`HeaderExtensions` lists the parse of every extmap attribute in order. -/
theorem sdpParseRtpParameters_correlates (d : MediaDescription) (res : RTCRtpParameters)
    (h : sdpParseRtpParameters d = (res, none)) :
    List.Forall₂ (CodecFor d)
      (d.MediaName.Formats.flatMap (fun f => attributesWith d "rtpmap".toList (f ++ [' '])))
      res.Codecs ∧
    List.Forall₂ (fun a ext => sdpParseExtmap a = .ok ext)
      (d.Attributes.filter (fun a => decide (a.Key = "extmap".toList))) res.HeaderExtensions := by
  unfold sdpParseRtpParameters at h
  simp only at h
  cases h1 : sdpParseRtpParametersFormats d d.MediaName.Formats
      { Codecs := [], HeaderExtensions := [] } with
  | error e =>
    rw [h1] at h
    simp only [Prod.mk.injEq, reduceCtorEq, and_false] at h
  | ok res1 =>
    rw [h1] at h
    simp only at h
    obtain ⟨cs, hc1, hc2⟩ := sdpParseRtpParametersFormats_ok d _ _ _ h1
    cases h2 : sdpMatchAttributePrefixFunc d "extmap".toList [] (sdpExtmapParser d) res1 with
    | error e =>
      rw [h2] at h
      simp only [Prod.mk.injEq, reduceCtorEq, and_false] at h
    | ok res2 =>
      rw [h2] at h
      simp only [Prod.mk.injEq, and_true] at h
      subst h
      obtain ⟨xs, hx1, hx2⟩ := matchLoop_ok sdpParseExtmap
        (fun (p : RTCRtpParameters) e =>
          { p with HeaderExtensions := p.HeaderExtensions ++ [e] })
        (sdpExtmapParser d) (sdpExtmapParser_eq d) "extmap".toList [] d.Attributes res1 res2 h2
      rw [foldl_append_extensions] at hx2
      have hfil : d.Attributes.filter (fun a => decide (a.Key = "extmap".toList) &&
          stringsHasPrefix a.Value []) =
          d.Attributes.filter (fun a => decide (a.Key = "extmap".toList)) := by
        congr 1
        funext a
        simp [stringsHasPrefix]
      rw [hfil] at hx1
      rw [hx2, hc2]
      exact ⟨by simpa using hc1, by simpa using hx1⟩

/-- C10 witness: the parse of `exampleMedia`. -/
theorem sdpParseRtpParameters_correlates_witness :
    List.Forall₂ (CodecFor exampleMedia)
      (exampleMedia.MediaName.Formats.flatMap
        (fun f => attributesWith exampleMedia "rtpmap".toList (f ++ [' '])))
      exampleMediaParameters.Codecs ∧
    List.Forall₂ (fun a ext => sdpParseExtmap a = .ok ext)
      (exampleMedia.Attributes.filter (fun a => decide (a.Key = "extmap".toList)))
      exampleMediaParameters.HeaderExtensions :=
  sdpParseRtpParameters_correlates exampleMedia exampleMediaParameters (by decide)

/-! ## rtcp-fb lines -/

/-- C14: for a non-empty payload-type token without spaces and a non-empty
feedback type without spaces, `sdpParseRtcpFeedback` on "pt t" returns type
`t` with an empty parameter, and on "pt t p" returns type `t` with parameter
`p`, for every parameter string `p`. -/
theorem sdpParseRtcpFeedback_wellFormed (key pt t p : Str) (hpt : pt ≠ []) (hsp : ' ' ∉ pt)
    (ht : t ≠ []) (hts : ' ' ∉ t) :
    sdpParseRtcpFeedback ⟨key, pt ++ ' ' :: t⟩ = .ok { Typ := t, Parameter := [] } ∧
    sdpParseRtcpFeedback ⟨key, pt ++ ' ' :: (t ++ ' ' :: p)⟩ =
      .ok { Typ := t, Parameter := p } := by
  have hlen : ¬ ((pt.length : Int) < 1) := by
    have : 0 < pt.length := List.length_pos.2 hpt
    omega
  have hlen2 : ((t.length : Int) > 0) := by
    have : 0 < t.length := List.length_pos.2 ht
    omega
  constructor
  · unfold sdpParseRtcpFeedback
    simp only [stringsIndex_append pt _ ' ' hsp, sliceFrom_append, if_neg hlen,
      stringsIndex_of_not_mem t ' ' hts]
    rfl
  · unfold sdpParseRtcpFeedback
    simp only [stringsIndex_append pt _ ' ' hsp, sliceFrom_append, if_neg hlen,
      stringsIndex_append t p ' ' hts, if_pos hlen2, sliceTo_append]

/-- C14 witness: "98 nack" and "98 nack rpsi". -/
theorem sdpParseRtcpFeedback_wellFormed_witness :
    sdpParseRtcpFeedback ⟨"rtcp-fb".toList, "98 nack".toList⟩ =
      .ok { Typ := "nack".toList, Parameter := [] } ∧
    sdpParseRtcpFeedback ⟨"rtcp-fb".toList, "98 nack rpsi".toList⟩ =
      .ok { Typ := "nack".toList, Parameter := "rpsi".toList } :=
  sdpParseRtcpFeedback_wellFormed "rtcp-fb".toList "98".toList "nack".toList "rpsi".toList
    (by decide) (by decide) (by decide) (by decide)

/-! ## Lookup by kind -/

theorem getCodecsByKindLoop_eq (rest : List RTCRtpCodec) (kind : RTCRtpCodecType) :
    ∀ codecs, getCodecsByKindLoop rest kind codecs =
      codecs ++ rest.filter (fun c => decide (c.Typ = kind)) := by
  induction rest with
  | nil =>
    intro codecs
    simp [getCodecsByKindLoop]
  | cons c rest2 ih =>
    intro codecs
    by_cases hc : c.Typ = kind
    · rw [getCodecsByKindLoop, if_pos hc, ih, List.filter_cons]
      simp [hc]
    · rw [getCodecsByKindLoop, if_neg hc, ih, List.filter_cons]
      simp [hc]

/-- C19: `getCodecsByKind(k)` returns the order-preserving filter of the
registry by kind `k`, so every codec of kind `k` as many times as it was
registered and no other codec, and leaves the registry unchanged. -/
theorem getCodecsByKind_filter (m : MediaEngine) (k : RTCRtpCodecType) :
    (getCodecsByKind m k).2 = m.codecs.filter (fun c => decide (c.Typ = k)) ∧
    (getCodecsByKind m k).1 = m ∧
    (∀ c, (getCodecsByKind m k).2.count c = if c.Typ = k then m.codecs.count c else 0) ∧
    (getCodecsByKind m k).2.Sublist m.codecs := by
  have h : (getCodecsByKind m k).2 = m.codecs.filter (fun c => decide (c.Typ = k)) := by
    unfold getCodecsByKind
    simp only
    rw [getCodecsByKindLoop_eq, List.nil_append]
  refine ⟨h, rfl, ?_, ?_⟩
  · intro c
    rw [h]
    by_cases hc : c.Typ = k
    · rw [if_pos hc]
      exact List.count_filter (by simpa using hc)
    · rw [if_neg hc]
      apply List.count_eq_zero_of_not_mem
      intro hm
      have := (List.mem_filter.1 hm).2
      simp only [decide_eq_true_eq] at this
      exact hc this
  · rw [h]
    exact List.filter_sublist _

/-! ## Transceiver direction -/

/-- C16: on a transceiver with a sender, `setSendingTrack` succeeds exactly
when the direction is recvonly or inactive; it then moves recvonly to sendrecv
and inactive to sendonly and the sender holds the track; from every other
direction it returns the invalid-state error and the direction stays. -/
theorem setSendingTrack_direction (t : RTCRtpTransceiver) (sender : RTCRtpSender)
    (track : Option RTCTrack) (hs : t.Sender = some sender) :
    ∃ t2 err, setSendingTrack t track = some (t2, err) ∧
      (err = none ↔ (t.Direction = .Recvonly ∨ t.Direction = .Inactive)) ∧
      (t.Direction = .Recvonly →
        t2.Direction = .Sendrecv ∧ t2.Sender = some { sender with Track := track }) ∧
      (t.Direction = .Inactive →
        t2.Direction = .Sendonly ∧ t2.Sender = some { sender with Track := track }) ∧
      (t.Direction ≠ .Recvonly → t.Direction ≠ .Inactive →
        err = some .invalidStateChange ∧ t2.Direction = t.Direction) := by
  unfold setSendingTrack
  rw [hs]
  simp only
  cases hd : t.Direction <;> refine ⟨_, _, rfl, ?_⟩ <;> simp

/-- C16 witness: from sendonly the call fails with the invalid-state error
and the direction stays sendonly. -/
theorem setSendingTrack_direction_witness :
    ∃ t2 err, setSendingTrack (exampleTransceiver .Sendonly) (some (exampleTrack 2)) =
        some (t2, err) ∧ err = some .invalidStateChange ∧ t2.Direction = .Sendonly := by
  obtain ⟨t2, err, h1, _, _, _, h5⟩ := setSendingTrack_direction (exampleTransceiver .Sendonly)
    { Track := some (exampleTrack 1) } (some (exampleTrack 2)) rfl
  exact ⟨t2, err, h1, (h5 (by decide) (by decide)).1, (h5 (by decide) (by decide)).2⟩

/-- C17 at the failing input: on a sendonly transceiver whose sender holds
track 1, `setSendingTrack` with track 2 returns the invalid-state error, and
the sender of the transceiver now holds track 2. -/
theorem setSendingTrack_error_replaces_track :
    setSendingTrack (exampleTransceiver .Sendonly) (some (exampleTrack 2)) =
      some ({ exampleTransceiver .Sendonly with
                Sender := some { Track := some (exampleTrack 2) } },
            some .invalidStateChange) ∧
    ({ exampleTransceiver .Sendonly with
        Sender := some { Track := some (exampleTrack 2) } } : RTCRtpTransceiver) ≠
      exampleTransceiver .Sendonly := by
  constructor
  · rfl
  · decide

/-! ## Receive -/

theorem getCodecParametersLoop_error (codecs : List RTCRtpCodecParameters) (pt : Nat)
    (h : ∀ c ∈ codecs, c.PayloadType ≠ pt) :
    getCodecParametersLoop codecs pt = .error (.payloadTypeNotFound pt) := by
  induction codecs with
  | nil => rfl
  | cons c rest ih =>
    rw [getCodecParametersLoop, if_neg (h c (List.mem_cons_self _ _))]
    exact ih (fun c2 h2 => h c2 (List.mem_cons_of_mem _ h2))

theorem getCodecParametersLoop_ok (codecs : List RTCRtpCodecParameters) (pt : Nat)
    (cp : RTCRtpCodecParameters) (h : getCodecParametersLoop codecs pt = .ok cp) :
    cp ∈ codecs ∧ cp.PayloadType = pt := by
  induction codecs with
  | nil => simp [getCodecParametersLoop] at h
  | cons c rest ih =>
    by_cases hc : c.PayloadType = pt
    · rw [getCodecParametersLoop, if_pos hc] at h
      injection h with h
      subst h
      exact ⟨List.mem_cons_self _ _, hc⟩
    · rw [getCodecParametersLoop, if_neg hc] at h
      exact ⟨List.mem_cons_of_mem _ (ih h).1, (ih h).2⟩

/-- C18: once both read streams are open and the first packet shows payload
type `pt`: if no negotiated codec has payload type `pt` (whatever the registry
holds), `Receive` returns the not-found error and leaves the receiver, and so
its track, as it was; in every case the call returns, an error leaves the
receiver unchanged, and success means that `getCodecParameters` found `pt`,
`getCodecSDP` resolved the parameters to a registered codec, and the track
carries that codec and payload type `pt`. -/
theorem Receive_resolves_track (r : RTCRtpReceiver) (mediaEngine : MediaEngine)
    (parameters : RTCRtpReceiveParameters) (env : ReceiveEnv)
    (enc : RTCRtpDecodingParameters) (rest : List RTCRtpDecodingParameters) (pt : Nat)
    (hEnc : parameters.Encodings = enc :: rest) (hRTP : env.openRTP = none)
    (hRTCP : env.openRTCP = none) (hFirst : env.firstPayloadType = some pt) :
    ((∀ c ∈ parameters.Codecs, c.PayloadType ≠ pt) →
      Receive r mediaEngine parameters env =
        .returns r (some (.failedToFindCodecParameters (.payloadTypeNotFound pt)))) ∧
    (∃ r2 err, Receive r mediaEngine parameters env = .returns r2 err ∧
      (err ≠ none → r2 = r) ∧
      (err = none → ∃ cp codec, getCodecParameters parameters pt = .ok cp ∧
        cp ∈ parameters.Codecs ∧ cp.PayloadType = pt ∧
        getCodecSDP mediaEngine cp = .ok codec ∧
        r2 = { r with Track := some { PayloadType := pt, Kind := codec.Typ, Codec := codec,
                                      Ssrc := enc.SSRC, isRawRTP := false } })) := by
  unfold Receive
  rw [hEnc]
  simp only [hRTP, hRTCP, hFirst]
  constructor
  · intro h
    have := getCodecParametersLoop_error parameters.Codecs pt h
    unfold getCodecParameters
    rw [this]
  · cases h1 : getCodecParameters parameters pt with
    | error e =>
      exact ⟨r, _, rfl, fun _ => rfl, fun h => by simp at h⟩
    | ok cp =>
      simp only
      cases h2 : getCodecSDP mediaEngine cp with
      | error e =>
        exact ⟨r, _, rfl, fun _ => rfl, fun h => by simp at h⟩
      | ok codec =>
        refine ⟨_, _, rfl, fun h => absurd rfl h, fun _ => ⟨cp, codec, rfl, ?_, ?_, h2, rfl⟩⟩
        · exact (getCodecParametersLoop_ok _ _ _ h1).1
        · exact (getCodecParametersLoop_ok _ _ _ h1).2

/-- C18 witness: payload type 100 is not among the negotiated codecs of
`exampleReceiveParameters`; the receiver comes back without a track. -/
theorem Receive_resolves_track_witness :
    Receive ⟨RTCRtpCodecTypeVideo, none, false⟩ ⟨[NewRTCRtpVP8Codec 96 90000]⟩
        exampleReceiveParameters (exampleEnv 100) =
      .returns ⟨RTCRtpCodecTypeVideo, none, false⟩
        (some (.failedToFindCodecParameters (.payloadTypeNotFound 100))) :=
  (Receive_resolves_track ⟨RTCRtpCodecTypeVideo, none, false⟩ ⟨[NewRTCRtpVP8Codec 96 90000]⟩
    exampleReceiveParameters (exampleEnv 100) { SSRC := 1234, PayloadType := 0 } [] 100
    rfl rfl rfl rfl).1 (by decide)

/-! ## ssrc lines -/

theorem sdpParseSsrcMedia_at (key a b : Str) (ha : ' ' ∉ a) (hne : a ≠ []) (ssrc : Nat)
    (hp : strconvParseUint a 32 = some ssrc) :
    sdpParseSsrcMedia ⟨key, a ++ ' ' :: b⟩ =
      .ok { Ssrc := ssrc % 2 ^ 32, Attribute := (stringsSplit b ':').getD 0 [],
            Value := if (stringsSplit b ':').length > 1 then (stringsSplit b ':').getD 1 []
                     else [] } := by
  unfold sdpParseSsrcMedia
  simp only [stringsIndex_append a b ' ' ha, sliceTo_append, sliceFrom_append]
  have hlen : ¬ ((a.length : Int) < 1) := by
    have : 0 < a.length := List.length_pos.2 hne
    omega
  rw [if_neg hlen, hp]

theorem sdpParseSsrcMedia_wellFormed (key : Str) (ssrc : Nat) (a v : Str) (hs : ssrc < 2 ^ 32)
    (ha : ':' ∉ a) (hv : ':' ∉ v) :
    sdpParseSsrcMedia ⟨key, formatUint ssrc ++ ' ' :: a⟩ =
      .ok { Ssrc := ssrc, Attribute := a, Value := [] } ∧
    sdpParseSsrcMedia ⟨key, formatUint ssrc ++ ' ' :: (a ++ ':' :: v)⟩ =
      .ok { Ssrc := ssrc, Attribute := a, Value := v } := by
  obtain ⟨p1, p2, _, p4⟩ := formatUint_spec ssrc
  have hm : ssrc % 2 ^ 32 = ssrc := Nat.mod_eq_of_lt hs
  constructor
  · rw [sdpParseSsrcMedia_at key _ a p2 p1 ssrc (p4 32 hs), stringsSplit_of_not_mem a ':' ha, hm]
    rfl
  · rw [sdpParseSsrcMedia_at key _ _ p2 p1 ssrc (p4 32 hs), stringsSplit_append a v ':' ha,
      stringsSplit_of_not_mem v ':' hv, hm]
    rfl

/-- C15 at the failing input: in "1234 cname:host:5000" the value after the
first ':' is "host:5000", and `sdpParseSsrcMedia` returns the value "host". -/
theorem sdpParseSsrcMedia_value_with_colon :
    sdpParseSsrcMedia ⟨"ssrc".toList, "1234 cname:host:5000".toList⟩ =
      .ok { Ssrc := 1234, Attribute := "cname".toList, Value := "host".toList } ∧
    "1234 cname:host:5000".toList = formatUint 1234 ++ ' ' :: ("cname".toList ++ ':' ::
      "host:5000".toList) ∧
    "host".toList ≠ "host:5000".toList := by
  refine ⟨rfl, by decide, by decide⟩

/-! ## Decoding parameters -/

theorem cnameSsrcs_cons (a : Attribute) (rest : List Attribute) :
    cnameSsrcs (a :: rest) =
      (if a.Key = AttrKeySsrc then
        match sdpParseSsrcMedia a with
        | .ok s => if s.Attribute = "cname".toList then [s] else []
        | .error _ => []
      else []) ++ cnameSsrcs rest := by
  unfold cnameSsrcs
  rw [List.filterMap_cons]
  by_cases hk : a.Key = AttrKeySsrc
  · simp only [if_pos hk]
    cases hp : sdpParseSsrcMedia a with
    | error e => rfl
    | ok s =>
      by_cases hc : s.Attribute = "cname".toList
      · simp only [if_pos hc]
        rfl
      · simp only [if_neg hc]
        rfl
  · simp only [if_neg hk]
    rfl

theorem cnameSsrcs_eq_nil_iff (attrs : List Attribute) :
    cnameSsrcs attrs = [] ↔ ∀ a ∈ attrs, ¬ CnameSsrc a := by
  induction attrs with
  | nil => simp [cnameSsrcs]
  | cons a rest ih =>
    rw [cnameSsrcs_cons, List.append_eq_nil, ih]
    constructor
    · rintro ⟨h1, h2⟩ b hb
      rcases List.mem_cons.1 hb with e | e
      · subst e
        rintro ⟨hk, s, hs, hc⟩
        rw [if_pos hk, hs] at h1
        simp only [if_pos hc] at h1
        cases h1
      · exact h2 b e
    · intro h
      refine ⟨?_, fun b hb => h b (List.mem_cons_of_mem _ hb)⟩
      have ha := h a (List.mem_cons_self _ _)
      by_cases hk : a.Key = AttrKeySsrc
      · rw [if_pos hk]
        cases hp : sdpParseSsrcMedia a with
        | error e => rfl
        | ok s =>
          by_cases hc : s.Attribute = "cname".toList
          · exact absurd ⟨hk, s, hp, hc⟩ ha
          · simp only [if_neg hc]
      · rw [if_neg hk]

theorem ssrcLoop_eq (attrs : List Attribute)
    (h : ∀ a ∈ attrs, a.Key = AttrKeySsrc → ∃ s, sdpParseSsrcMedia a = .ok s) :
    ∀ acc, sdpMatchAttributePrefixFuncLoop attrs AttrKeySsrc [] sdpSsrcCnameParser acc =
      .ok (acc ++ cnameSsrcs attrs) := by
  induction attrs with
  | nil =>
    intro acc
    simp [sdpMatchAttributePrefixFuncLoop, cnameSsrcs]
  | cons a rest ih =>
    intro acc
    have ih2 := ih (fun b hb => h b (List.mem_cons_of_mem _ hb))
    have hpre : stringsHasPrefix a.Value [] = true := by simp [stringsHasPrefix]
    rw [cnameSsrcs_cons]
    by_cases hk : a.Key = AttrKeySsrc
    · have hc : ¬ (a.Key ≠ AttrKeySsrc ∨ (!stringsHasPrefix a.Value []) = true) := by
        simp [hk, hpre]
      obtain ⟨s, hs⟩ := h a (List.mem_cons_self _ _) hk
      have hpar : sdpSsrcCnameParser acc a =
          if s.Attribute = "cname".toList then .ok (acc ++ [s]) else .ok acc := by
        unfold sdpSsrcCnameParser
        rw [hs]
      rw [sdpMatchAttributePrefixFuncLoop, if_neg hc, if_pos hk, hs, hpar]
      by_cases hcn : s.Attribute = "cname".toList
      · simp only [if_pos hcn]
        rw [ih2, List.append_assoc]
      · simp only [if_neg hcn]
        rw [ih2]
        rfl
    · have hc : a.Key ≠ AttrKeySsrc ∨ (!stringsHasPrefix a.Value []) = true := Or.inl hk
      rw [sdpMatchAttributePrefixFuncLoop, if_pos hc, if_neg hk, ih2]
      rfl

/-- C12: when every ssrc attribute parses, `sdpParseRtpDecodingParameters`
fails exactly when no ssrc attribute has the attribute name "cname";
otherwise it returns exactly one entry, with the SSRC of the first
cname-tagged ssrc attribute in attribute order. -/
theorem sdpParseRtpDecodingParameters_first_cname (d : MediaDescription)
    (h : ∀ a ∈ d.Attributes, a.Key = AttrKeySsrc → ∃ s, sdpParseSsrcMedia a = .ok s) :
    ((∃ e, sdpParseRtpDecodingParameters d = .error e) ↔ ∀ a ∈ d.Attributes, ¬ CnameSsrc a) ∧
    (∀ pre a post s, d.Attributes = pre ++ a :: post → (∀ b ∈ pre, ¬ CnameSsrc b) →
      a.Key = AttrKeySsrc → sdpParseSsrcMedia a = .ok s → s.Attribute = "cname".toList →
      sdpParseRtpDecodingParameters d = .ok [{ SSRC := s.Ssrc, PayloadType := 0 }]) := by
  have hres : sdpParseRtpDecodingParameters d =
      match cnameSsrcs d.Attributes with
      | [] => .error .noSsrcFound
      | first :: _ => .ok [{ SSRC := first.Ssrc, PayloadType := 0 }] := by
    unfold sdpParseRtpDecodingParameters sdpMatchAttributePrefixFunc
    rw [ssrcLoop_eq d.Attributes h [], List.nil_append]
  constructor
  · rw [hres, ← cnameSsrcs_eq_nil_iff]
    cases hc : cnameSsrcs d.Attributes with
    | nil => exact ⟨fun _ => rfl, fun _ => ⟨_, rfl⟩⟩
    | cons first rest =>
      constructor
      · rintro ⟨e, he⟩
        cases he
      · intro h2
        cases h2
  · intro pre a post s hd hpre hk hs hc
    have h1 : cnameSsrcs pre = [] := (cnameSsrcs_eq_nil_iff pre).2 hpre
    have h2 : cnameSsrcs d.Attributes = s :: cnameSsrcs post := by
      rw [hd]
      unfold cnameSsrcs
      rw [List.filterMap_append]
      have h1b := h1
      unfold cnameSsrcs at h1b
      rw [h1b, List.nil_append]
      have := cnameSsrcs_cons a post
      unfold cnameSsrcs at this
      rw [this, if_pos hk, hs]
      simp only [if_pos hc]
      rfl
    rw [hres, h2]

/-- C12 witness: of the two cname-tagged ssrc attributes of `exampleSsrcMedia`
only the first, 2222, is returned. -/
theorem sdpParseRtpDecodingParameters_first_cname_witness :
    sdpParseRtpDecodingParameters exampleSsrcMedia = .ok [{ SSRC := 2222, PayloadType := 0 }] :=
  (sdpParseRtpDecodingParameters_first_cname exampleSsrcMedia (by
      intro a ha _
      simp only [exampleSsrcMedia, List.mem_cons, List.mem_singleton, List.not_mem_nil,
        or_false] at ha
      rcases ha with e | e | e <;> subst e <;> exact ⟨_, rfl⟩)).2
    [⟨"ssrc".toList, "1111 msid:stream track".toList⟩]
    ⟨"ssrc".toList, "2222 cname:first".toList⟩
    [⟨"ssrc".toList, "3333 cname:second".toList⟩]
    { Ssrc := 2222, Attribute := "cname".toList, Value := "first".toList }
    rfl
    (by
      intro b hb
      rw [List.mem_singleton] at hb
      subst hb
      rintro ⟨_, s, hs, hc⟩
      have hs2 : sdpParseSsrcMedia ⟨"ssrc".toList, "1111 msid:stream track".toList⟩ =
          .ok { Ssrc := 1111, Attribute := "msid".toList, Value := "stream track".toList } := rfl
      rw [hs2] at hs
      injection hs with hs
      subst hs
      revert hc
      decide)
    rfl rfl rfl

/-! ## extmap lines -/

theorem stringsSplit_head (s : Str) (sep : Char) :
    (stringsSplit s sep).getD 0 [] = s.takeWhile (fun c => decide (c ≠ sep)) := by
  induction s with
  | nil => rfl
  | cons c cs ih =>
    by_cases hc : c = sep
    · have hd : decide (c ≠ sep) = false := by simp [hc]
      rw [stringsSplit, if_pos hc, List.takeWhile_cons, hd]
      rfl
    · have hd : decide (c ≠ sep) = true := by simp [hc]
      rw [stringsSplit, if_neg hc, List.takeWhile_cons, hd, ← ih]
      cases hsp : stringsSplit cs sep with
      | nil => rfl
      | cons p0 ps => rfl

theorem takeWhile_before_space (a b : Str) (ha : ' ' ∉ a) :
    (a ++ ' ' :: b).takeWhile (fun c => decide (c ≠ '/' ∧ c ≠ ' ')) =
      a.takeWhile (fun c => decide (c ≠ '/')) := by
  induction a with
  | nil =>
    rw [List.nil_append, List.takeWhile_cons]
    rfl
  | cons c cs ih =>
    have hc : c ≠ ' ' := fun e => ha (e ▸ List.mem_cons_self _ _)
    have hcs : ' ' ∉ cs := fun e => ha (List.mem_cons_of_mem _ e)
    rw [List.cons_append, List.takeWhile_cons, List.takeWhile_cons, ih hcs]
    by_cases h1 : c = '/'
    · simp [h1]
    · simp [h1, hc]

theorem sdpParseExtmap_at (key a b : Str) (ha : ' ' ∉ a) :
    sdpParseExtmap ⟨key, a ++ ' ' :: b⟩ =
      if a = [] then .error (.extmapAttributeTooShort (a ++ ' ' :: b))
      else
        match strconvParseUint ((stringsSplit a '/').getD 0 []) 16 with
        | none => .error (.invalidId ((stringsSplit a '/').getD 0 []))
        | some id =>
          .ok { ID := id % 2 ^ 16,
                direction := if (stringsSplit a '/').length > 1 then (stringsSplit a '/').getD 1 []
                             else "sendrecv".toList,
                URI := b } := by
  unfold sdpParseExtmap
  simp only [stringsIndex_append a b ' ' ha, sliceTo_append, sliceFrom_append]
  by_cases hne : a = []
  · subst hne
    simp
  · have hlen : ¬ ((a.length : Int) < 1) := by
      have : 0 < a.length := List.length_pos.2 hne
      omega
    rw [if_neg hlen, if_neg hne]

/-- C13: for an id below 2^16 in decimal, a direction without '/' and space,
and every URI, `sdpParseExtmap` on "id/direction uri" returns these three, and
on "id uri" it returns the id, direction "sendrecv" and the URI; and it fails
whenever the text before the first '/' or space is not an unsigned decimal
number fitting 16 bits. -/
theorem sdpParseExtmap_wellFormed (key : Str) (id : Nat) (d u : Str) (hid : id < 2 ^ 16)
    (hd1 : '/' ∉ d) (hd2 : ' ' ∉ d) :
    sdpParseExtmap ⟨key, formatUint id ++ '/' :: (d ++ ' ' :: u)⟩ =
      .ok { ID := id, direction := d, URI := u } ∧
    sdpParseExtmap ⟨key, formatUint id ++ ' ' :: u⟩ =
      .ok { ID := id, direction := "sendrecv".toList, URI := u } ∧
    (∀ line : Str,
      strconvParseUint (line.takeWhile (fun c => decide (c ≠ '/' ∧ c ≠ ' '))) 16 = none →
      ∃ e, sdpParseExtmap ⟨key, line⟩ = .error e) := by
  obtain ⟨p1, p2, p3, p4⟩ := formatUint_spec id
  have hm : id % 2 ^ 16 = id := Nat.mod_eq_of_lt hid
  refine ⟨?_, ?_, ?_⟩
  · have hre : formatUint id ++ '/' :: (d ++ ' ' :: u) =
        (formatUint id ++ '/' :: d) ++ ' ' :: u := by simp
    have hsp : ' ' ∉ formatUint id ++ '/' :: d := by
      intro hmem
      rcases List.mem_append.1 hmem with h1 | h1
      · exact p2 h1
      · rcases List.mem_cons.1 h1 with h2 | h2
        · revert h2
          decide
        · exact hd2 h2
    have hne : formatUint id ++ '/' :: d ≠ [] := by simp
    rw [hre, sdpParseExtmap_at key _ u hsp, if_neg hne, stringsSplit_append _ d '/' p3,
      stringsSplit_of_not_mem d '/' hd1]
    simp only [List.getD_cons_zero, p4 16 hid, hm]
    rfl
  · rw [sdpParseExtmap_at key _ u p2, if_neg p1, stringsSplit_of_not_mem _ '/' p3]
    simp only [List.getD_cons_zero, p4 16 hid, hm]
    rfl
  · intro line hline
    by_cases hs : ' ' ∈ line
    · obtain ⟨hl, ha⟩ := line_split_at_space line hs
      have heq : sdpParseExtmap ⟨key, line⟩ =
          sdpParseExtmap ⟨key, fieldBeforeSpace line ++ ' ' :: fieldAfterSpace line⟩ := by
        rw [← hl]
      have htw : line.takeWhile (fun c => decide (c ≠ '/' ∧ c ≠ ' ')) =
          (stringsSplit (fieldBeforeSpace line) '/').getD 0 [] := by
        rw [stringsSplit_head, ← takeWhile_before_space _ (fieldAfterSpace line) ha, ← hl]
      rw [htw] at hline
      rw [heq, sdpParseExtmap_at _ _ _ ha]
      by_cases hne : fieldBeforeSpace line = []
      · rw [if_pos hne]
        exact ⟨_, rfl⟩
      · rw [if_neg hne, hline]
        exact ⟨_, rfl⟩
    · unfold sdpParseExtmap
      simp only [stringsIndex_of_not_mem line ' ' hs]
      exact ⟨_, rfl⟩

/-- C13 witness: "2/sendonly urn:ietf:params:rtp-hdrext:toffset". -/
theorem sdpParseExtmap_wellFormed_witness :
    sdpParseExtmap ⟨"extmap".toList, "2/sendonly urn:ietf:params:rtp-hdrext:toffset".toList⟩ =
      .ok { ID := 2, direction := "sendonly".toList,
            URI := "urn:ietf:params:rtp-hdrext:toffset".toList } :=
  (sdpParseExtmap_wellFormed "extmap".toList 2 "sendonly".toList
    "urn:ietf:params:rtp-hdrext:toffset".toList (by decide) (by decide) (by decide)).1

/-! ## Failures of the correlation -/

theorem forall₂_mem_left {α β : Type} (R : α → β → Prop) (as : List α) (xs : List β)
    (h : List.Forall₂ R as xs) : ∀ a ∈ as, ∃ x, R a x := by
  induction h with
  | nil =>
    intro a ha
    exact absurd ha (List.not_mem_nil _)
  | @cons a0 x0 as2 xs2 hR _ ih =>
    intro a ha
    rcases List.mem_cons.1 ha with e | e
    · exact ⟨x0, e ▸ hR⟩
    · exact ih a e

theorem correlatedCodec_ok_all (d : MediaDescription) (a : Attribute)
    (c : RTCRtpCodecParameters) (h : correlatedCodec d a = .ok c) :
    ∃ c0, sdpParseRtpMap a = .ok c0 ∧
      (∀ x ∈ attributesWith d "fmtp".toList (formatUint c0.PayloadType ++ [' ']),
        ∃ m, sdpParseFmtp x = .ok m) ∧
      (∀ x ∈ attributesWith d "rtcp-fb".toList (formatUint c0.PayloadType ++ [' ']),
        ∃ fb, sdpParseRtcpFeedback x = .ok fb) := by
  unfold correlatedCodec at h
  cases h1 : sdpParseRtpMap a with
  | error e =>
    rw [h1] at h
    cases h
  | ok c0 =>
    rw [h1] at h
    simp only at h
    cases h2 : sdpMatchAttributePrefixFunc d "fmtp".toList (formatUint c0.PayloadType ++ [' '])
        (sdpRtpFmtpParser d) c0 with
    | error e =>
      rw [h2] at h
      cases h
    | ok c1 =>
      rw [h2] at h
      simp only at h
      obtain ⟨xs, hx1, hx2⟩ := matchLoop_ok sdpParseFmtp
        (fun (c : RTCRtpCodecParameters) ps => { c with Parameters := ps })
        (sdpRtpFmtpParser d) (sdpRtpFmtpParser_eq d) "fmtp".toList
        (formatUint c0.PayloadType ++ [' ']) d.Attributes c0 c1 h2
      rw [foldl_set_parameters] at hx2
      have hpt : c1.PayloadType = c0.PayloadType := by rw [hx2]
      rw [hpt] at h
      cases h3 : sdpMatchAttributePrefixFunc d "rtcp-fb".toList
          (formatUint c0.PayloadType ++ [' ']) (sdpRtpRtcpFeedbackParser d) c1 with
      | error e =>
        rw [h3] at h
        cases h
      | ok c2 =>
        obtain ⟨ys, hy1, _⟩ := matchLoop_ok sdpParseRtcpFeedback
          (fun (c : RTCRtpCodecParameters) fb => { c with RtcpFeedback := c.RtcpFeedback ++ [fb] })
          (sdpRtpRtcpFeedbackParser d) (sdpRtpRtcpFeedbackParser_eq d) "rtcp-fb".toList
          (formatUint c0.PayloadType ++ [' ']) d.Attributes c1 c2 h3
        exact ⟨c0, rfl, forall₂_mem_left _ _ _ hx1, forall₂_mem_left _ _ _ hy1⟩

theorem sdpParseRtpParametersFormats_ok_all (d : MediaDescription) (formats : List Str) :
    ∀ res res2 : RTCRtpParameters,
    sdpParseRtpParametersFormats d formats res = .ok res2 →
    ∀ f ∈ formats, ∀ a ∈ attributesWith d "rtpmap".toList (f ++ [' ']),
      ∃ c, correlatedCodec d a = .ok c := by
  induction formats with
  | nil =>
    intro res res2 _ f hf
    exact absurd hf (List.not_mem_nil _)
  | cons format rest ih =>
    intro res res2 h f hf
    rw [sdpParseRtpParametersFormats] at h
    cases h1 : sdpMatchAttributePrefixFunc d "rtpmap".toList (format ++ [' '])
        (sdpRtpCodecParser d) res with
    | error e =>
      rw [h1] at h
      cases h
    | ok res1 =>
      rw [h1] at h
      simp only at h
      rcases List.mem_cons.1 hf with e | e
      · obtain ⟨xs, hx1, _⟩ := matchLoop_ok (correlatedCodec d)
          (fun (p : RTCRtpParameters) c => { p with Codecs := p.Codecs ++ [c] })
          (sdpRtpCodecParser d) (sdpRtpCodecParser_eq d) "rtpmap".toList
          (format ++ [' ']) d.Attributes res res1 h1
        rw [e]
        exact forall₂_mem_left _ _ _ hx1
      · exact ih res1 res2 h f e

/-- C11: when a correlated attribute fails to parse, `sdpParseRtpParameters`
returns an error together with the empty parameter set; and whenever it
returns an error, the parameter set it returns is empty. -/
theorem sdpParseRtpParameters_error_empty (d : MediaDescription) (h : CorrelatedFailure d) :
    (∃ e, sdpParseRtpParameters d = ({ Codecs := [], HeaderExtensions := [] }, some e)) ∧
    (∀ res e, sdpParseRtpParameters d = (res, some e) →
      res = { Codecs := [], HeaderExtensions := [] }) := by
  unfold sdpParseRtpParameters
  simp only
  cases h1 : sdpParseRtpParametersFormats d d.MediaName.Formats
      { Codecs := [], HeaderExtensions := [] } with
  | error e =>
    refine ⟨⟨_, rfl⟩, fun res e2 h2 => ?_⟩
    simp only [Prod.mk.injEq] at h2
    exact h2.1.symm
  | ok res1 =>
    simp only
    cases h2 : sdpMatchAttributePrefixFunc d "extmap".toList [] (sdpExtmapParser d) res1 with
    | error e =>
      refine ⟨⟨_, rfl⟩, fun res e2 h3 => ?_⟩
      simp only [Prod.mk.injEq] at h3
      exact h3.1.symm
    | ok res2 =>
      exfalso
      have hall := sdpParseRtpParametersFormats_ok_all d _ _ _ h1
      obtain ⟨xs, hx1, _⟩ := matchLoop_ok sdpParseExtmap
        (fun (p : RTCRtpParameters) e =>
          { p with HeaderExtensions := p.HeaderExtensions ++ [e] })
        (sdpExtmapParser d) (sdpExtmapParser_eq d) "extmap".toList [] d.Attributes res1 res2 h2
      rcases h with ⟨f, hf, a, ha, hfail⟩ | ⟨a, ha, hk, hfail⟩
      · obtain ⟨c, hc⟩ := hall f hf a ha
        obtain ⟨c0, hc0, hfm, hfb⟩ := correlatedCodec_ok_all d a c hc
        rcases hfail with hno | ⟨c1, hc1, hsub⟩
        · exact hno c0 hc0
        · rw [hc0] at hc1
          injection hc1 with hc1
          subst hc1
          rcases hsub with ⟨x, hx, hxf⟩ | ⟨x, hx, hxf⟩
          · obtain ⟨m, hm⟩ := hfm x hx
            exact hxf m hm
          · obtain ⟨fb, hfb2⟩ := hfb x hx
            exact hxf fb hfb2
      · have hmem : a ∈ d.Attributes.filter (fun a => decide (a.Key = "extmap".toList) &&
            stringsHasPrefix a.Value []) := by
          rw [List.mem_filter]
          refine ⟨ha, ?_⟩
          simp [hk, stringsHasPrefix]
        obtain ⟨e, he⟩ := forall₂_mem_left _ _ _ hx1 a hmem
        exact hfail e he

/-- C11 witness: the fmtp line "96 novalue" of `exampleBrokenMedia` fails to
parse; the result is an error with the empty parameter set. -/
theorem sdpParseRtpParameters_error_empty_witness :
    ∃ e, sdpParseRtpParameters exampleBrokenMedia =
      ({ Codecs := [], HeaderExtensions := [] }, some e) :=
  (sdpParseRtpParameters_error_empty exampleBrokenMedia
    (Or.inl ⟨"96".toList, by decide, ⟨"rtpmap".toList, "96 VP8/90000".toList⟩, by decide,
      Or.inr ⟨{ Name := "VP8".toList, MimeType := [], PayloadType := 96, ClockRate := 90000,
                Maxptime := 0, Ptime := 0, Channels := 0, RtcpFeedback := [],
                Parameters := StrMap.empty }, rfl,
        Or.inl ⟨⟨"fmtp".toList, "96 novalue".toList⟩, by decide, fun m hm => by
          have hfail : sdpParseFmtp ⟨"fmtp".toList, "96 novalue".toList⟩ =
              .error (.invalidParameter "novalue".toList) := rfl
          rw [hfail] at hm
          cases hm⟩⟩⟩)).1

/-! ## White space after the separators -/

theorem stringsTrimSpace_cons_space (k : Str) :
    stringsTrimSpace (' ' :: k) = stringsTrimSpace k := by
  unfold stringsTrimSpace
  rw [List.dropWhile_cons, if_pos (by decide)]

theorem stringsSplit_cons_of_ne (c sep : Char) (s : Str) (hc : c ≠ sep) :
    stringsSplit (c :: s) sep =
      (c :: (stringsSplit s sep).getD 0 []) :: (stringsSplit s sep).drop 1 := by
  rw [stringsSplit, if_neg hc]
  cases hsp : stringsSplit s sep with
  | nil => exact absurd hsp (stringsSplit_ne_nil s sep)
  | cons p0 ps => rfl

theorem stringsSplit_joinWith_spaced (x : Str) (rest : List Str)
    (h : ∀ s ∈ x :: rest, ';' ∉ s) :
    stringsSplit (joinWith [';', ' '] (x :: rest)) ';' =
      x :: rest.map (fun s => ' ' :: s) := by
  induction rest generalizing x with
  | nil => exact stringsSplit_of_not_mem x ';' (h x (List.mem_cons_self _ _))
  | cons y rest2 ih =>
    have hx : ';' ∉ x := h x (List.mem_cons_self _ _)
    have hrest : ∀ s ∈ y :: rest2, ';' ∉ s := fun s hs => h s (List.mem_cons_of_mem _ hs)
    have hj : joinWith [';', ' '] (x :: y :: rest2) =
        x ++ ';' :: (' ' :: joinWith [';', ' '] (y :: rest2)) := by
      rw [joinWith]
      simp
    rw [hj, stringsSplit_append x _ ';' hx, stringsSplit_cons_of_ne ' ' ';' _ (by decide),
      ih y hrest]
    rfl

theorem sdpParseFmtpStringLoop_padded (segs : List Str) (l : List (Str × Str))
    (hrel : List.Forall₂ (fun seg e => seg = e.1 ++ '=' :: e.2 ∨
      seg = ' ' :: (e.1 ++ '=' :: e.2)) segs l)
    (hl : ∀ e ∈ l, ('=' ∉ e.1 ∧ NoOuterSpace e.1) ∧ ('=' ∉ e.2 ∧ NoOuterSpace e.2)) :
    ∀ res : StrMap,
      sdpParseFmtpStringLoop segs res = .ok (l.foldl (fun m e => m.set e.1 e.2) res) := by
  induction hrel with
  | nil =>
    intro res
    rfl
  | @cons seg e segs2 l2 hse _ ih =>
    intro res
    obtain ⟨⟨hk1, hk2⟩, ⟨hv1, hv2⟩⟩ := hl e (List.mem_cons_self _ _)
    have ih2 := ih (fun e2 h2 => hl e2 (List.mem_cons_of_mem _ h2))
    rcases hse with hs | hs
    · have hne : ¬ (stringsTrimSpace seg).length = 0 := by
        intro h0
        exact stringsTrimSpace_ne_nil_of_mem seg '=' (by rw [hs]; simp) (by decide)
          (List.length_eq_zero.1 h0)
      rw [sdpParseFmtpStringLoop, if_neg hne, hs, stringsSplit_append e.1 e.2 '=' hk1,
        stringsSplit_of_not_mem e.2 '=' hv1]
      simp only
      rw [stringsTrimSpace_eq_self e.1 hk2.1 hk2.2, stringsTrimSpace_eq_self e.2 hv2.1 hv2.2,
        ih2]
      rfl
    · have hne : ¬ (stringsTrimSpace seg).length = 0 := by
        intro h0
        exact stringsTrimSpace_ne_nil_of_mem seg '=' (by rw [hs]; simp) (by decide)
          (List.length_eq_zero.1 h0)
      have hk3 : '=' ∉ ' ' :: e.1 := by
        intro hm
        rcases List.mem_cons.1 hm with h1 | h1
        · revert h1
          decide
        · exact hk1 h1
      have hsplit : stringsSplit (' ' :: (e.1 ++ '=' :: e.2)) '=' = [' ' :: e.1, e.2] := by
        rw [← List.cons_append, stringsSplit_append (' ' :: e.1) e.2 '=' hk3,
          stringsSplit_of_not_mem e.2 '=' hv1]
      rw [sdpParseFmtpStringLoop, if_neg hne, hs, hsplit]
      simp only
      rw [stringsTrimSpace_cons_space, stringsTrimSpace_eq_self e.1 hk2.1 hk2.2,
        stringsTrimSpace_eq_self e.2 hv2.1 hv2.2, ih2]
      rfl

theorem dropWhile_head_not (p : Char → Bool) (s : Str) (x : Char) (rest : Str)
    (h : s.dropWhile p = x :: rest) : p x = false := by
  induction s with
  | nil => cases h
  | cons c cs ih =>
    rw [List.dropWhile_cons] at h
    cases hc : p c with
    | true =>
      rw [hc, if_pos rfl] at h
      exact ih h
    | false =>
      rw [hc] at h
      simp only [Bool.false_eq_true, if_false, List.cons.injEq] at h
      rw [← h.1]
      exact hc

theorem stringsTrimSpace_noOuterSpace (s : Str) : NoOuterSpace (stringsTrimSpace s) := by
  unfold stringsTrimSpace
  constructor
  · cases hr : ((s.dropWhile unicodeIsSpace).reverse.dropWhile unicodeIsSpace).reverse with
    | nil => simp
    | cons x r2 =>
      have hsuf : ((s.dropWhile unicodeIsSpace).reverse.dropWhile unicodeIsSpace) <:+
          (s.dropWhile unicodeIsSpace).reverse := List.dropWhile_suffix _
      have hpre : ((s.dropWhile unicodeIsSpace).reverse.dropWhile unicodeIsSpace).reverse <+:
          s.dropWhile unicodeIsSpace := by
        have := List.reverse_prefix.2 hsuf
        rwa [List.reverse_reverse] at this
      rw [hr] at hpre
      obtain ⟨t, ht⟩ := hpre
      have hx := dropWhile_head_not unicodeIsSpace s x (r2 ++ t) (by rw [← ht]; rfl)
      simp [hx]
  · rw [List.getLast?_reverse]
    cases hd : (s.dropWhile unicodeIsSpace).reverse.dropWhile unicodeIsSpace with
    | nil => simp
    | cons x r2 =>
      have hx := dropWhile_head_not unicodeIsSpace _ x r2 hd
      simp [hx]

theorem sdpParseFmtpStringLoop_trimmed (params : List Str) : ∀ res m : StrMap,
    (∀ e ∈ res.entries, NoOuterSpace e.1 ∧ NoOuterSpace e.2) →
    sdpParseFmtpStringLoop params res = .ok m →
    ∀ e ∈ m.entries, NoOuterSpace e.1 ∧ NoOuterSpace e.2 := by
  induction params with
  | nil =>
    intro res m hres h
    simp only [sdpParseFmtpStringLoop] at h
    injection h with h
    rw [← h]
    exact hres
  | cons param rest ih =>
    intro res m hres h
    by_cases ht : (stringsTrimSpace param).length = 0
    · rw [sdpParseFmtpStringLoop, if_pos ht] at h
      exact ih res m hres h
    · rw [sdpParseFmtpStringLoop, if_neg ht] at h
      cases hsp : stringsSplit param '=' with
      | nil =>
        rw [hsp] at h
        cases h
      | cons p0 ps =>
        cases ps with
        | nil =>
          rw [hsp] at h
          cases h
        | cons p1 more =>
          rw [hsp] at h
          simp only at h
          refine ih _ m ?_ h
          intro e he
          unfold StrMap.set at he
          simp only at he
          rcases List.mem_cons.1 he with h1 | h1
          · rw [h1]
            exact ⟨stringsTrimSpace_noOuterSpace p0, stringsTrimSpace_noOuterSpace p1⟩
          · exact hres e (List.mem_filter.1 h1).1

/-- C20: for key/value pairs whose keys and values contain no ';' or '=' and
no leading or trailing white space, the format string joined with "; " parses,
and to the same map as the string joined with ";"; and every key and value of
any successfully parsed map has no leading or trailing white space. -/
theorem sdpParseFmtpString_spaced (l : List (Str × Str))
    (hl : ∀ e ∈ l, FmtpToken e.1 ∧ FmtpToken e.2) :
    sdpParseFmtpString (fmtpLineSpaced l) = sdpParseFmtpString (fmtpLine l) ∧
    (∃ m, sdpParseFmtpString (fmtpLineSpaced l) = .ok m) ∧
    (∀ s m, sdpParseFmtpString s = .ok m →
      ∀ e ∈ m.entries, NoOuterSpace e.1 ∧ NoOuterSpace e.2) := by
  have hl2 : ∀ e ∈ l, ('=' ∉ e.1 ∧ NoOuterSpace e.1) ∧ ('=' ∉ e.2 ∧ NoOuterSpace e.2) :=
    fun e he => ⟨⟨(hl e he).1.2.1, (hl e he).1.2.2⟩, ⟨(hl e he).2.2.1, (hl e he).2.2.2⟩⟩
  have hspaced : sdpParseFmtpString (fmtpLineSpaced l) =
      .ok (l.foldl (fun m e => m.set e.1 e.2) StrMap.empty) := by
    unfold sdpParseFmtpString fmtpLineSpaced
    cases hcase : l with
    | nil => rfl
    | cons e rest =>
      rw [List.map_cons, stringsSplit_joinWith_spaced]
      · apply sdpParseFmtpStringLoop_padded
        · refine List.Forall₂.cons (Or.inl rfl) ?_
          clear hcase hl hl2
          induction rest with
          | nil => exact List.Forall₂.nil
          | cons e2 rest2 ih2 => exact List.Forall₂.cons (Or.inr rfl) ih2
        · rw [← hcase]
          exact hl2
      · intro x hx
        have hx2 : x ∈ l.map (fun e => e.1 ++ '=' :: e.2) := by
          rw [hcase]
          exact hx
        obtain ⟨e2, he2, rfl⟩ := List.mem_map.1 hx2
        intro hmem
        rcases List.mem_append.1 hmem with h1 | h1
        · exact (hl e2 he2).1.1 h1
        · rcases List.mem_cons.1 h1 with h2 | h2
          · revert h2
            decide
          · exact (hl e2 he2).2.1 h2
  refine ⟨?_, ⟨_, hspaced⟩, ?_⟩
  · rw [hspaced, sdpParseFmtpString_fmtpLine l hl]
  · intro s m hm
    exact sdpParseFmtpStringLoop_trimmed _ StrMap.empty m
      (fun e he => absurd he (List.not_mem_nil _)) hm

/-- C20 witness: "vbr=on; cng=on" parses like "vbr=on;cng=on". -/
theorem sdpParseFmtpString_spaced_witness :
    sdpParseFmtpString "vbr=on; cng=on".toList = sdpParseFmtpString "vbr=on;cng=on".toList :=
  (sdpParseFmtpString_spaced [("vbr".toList, "on".toList), ("cng".toList, "on".toList)]
    (by decide)).1

/-! ## Round trip of codec parameters -/

/-- C24: for codec parameters whose name contains no '/', with the payload
type an 8-bit and the clock rate and channels 32-bit values, `sdpParseRtpMap`
on `p.String()` succeeds and returns the same name, payload type, clock rate
and channels. -/
theorem sdpParseRtpMap_String_roundtrip (key : Str) (p : RTCRtpCodecParameters)
    (hn : '/' ∉ p.Name) (hpt : p.PayloadType < 2 ^ 8) (hr : p.ClockRate < 2 ^ 32)
    (hch : p.Channels < 2 ^ 32) :
    ∃ q, sdpParseRtpMap ⟨key, p.String⟩ = .ok q ∧ q.Name = p.Name ∧
      q.PayloadType = p.PayloadType ∧ q.ClockRate = p.ClockRate ∧
      q.Channels = p.Channels := by
  obtain ⟨p1, p2, _, p4⟩ := formatUint_spec p.PayloadType
  obtain ⟨_, _, r3, r4⟩ := formatUint_spec p.ClockRate
  obtain ⟨_, _, c3, c4⟩ := formatUint_spec p.Channels
  have hs : p.String = formatUint p.PayloadType ++ ' ' :: (p.Name ++ '/' ::
      (formatUint p.ClockRate ++ '/' :: formatUint p.Channels)) := by
    unfold RTCRtpCodecParameters.String
    simp
  refine ⟨{ Name := p.Name, MimeType := [], PayloadType := p.PayloadType,
            ClockRate := p.ClockRate, Maxptime := 0, Ptime := 0, Channels := p.Channels,
            RtcpFeedback := [], Parameters := StrMap.empty }, ?_, rfl, rfl, rfl, rfl⟩
  rw [hs, sdpParseRtpMap_at _ _ _ p2, if_neg p1, p4 8 hpt, stringsSplit_append p.Name _ '/' hn,
    stringsSplit_append _ _ '/' r3, stringsSplit_of_not_mem _ '/' c3]
  simp only [r4 32 hr, c4 32 hch, Nat.mod_eq_of_lt hpt, Nat.mod_eq_of_lt hr,
    Nat.mod_eq_of_lt hch]

/-- C24 witness: the opus parameters 111, 48000, 2 print as
"111 opus/48000/2" and parse back. -/
theorem sdpParseRtpMap_String_roundtrip_witness :
    ∃ q, sdpParseRtpMap ⟨"rtpmap".toList, "111 opus/48000/2".toList⟩ = .ok q ∧
      q.Name = "opus".toList ∧ q.PayloadType = 111 ∧ q.ClockRate = 48000 ∧ q.Channels = 2 :=
  sdpParseRtpMap_String_roundtrip "rtpmap".toList
    { Name := "opus".toList, MimeType := "audio/opus".toList, PayloadType := 111,
      ClockRate := 48000, Maxptime := 0, Ptime := 0, Channels := 2, RtcpFeedback := [],
      Parameters := exampleParams }
    (by decide) (by decide) (by decide) (by decide)

/-! ## Stop -/

/-- C21: after a `Stop` call on a receiver has returned without error, the
receiver is closed, and every later `Stop` call returns the already-closed
error, calls `Close` on neither read stream and leaves the receiver as it
is; so does every run of later calls. -/
theorem receiverStop_after_success (r r1 : RTCRtpReceiver) (s s1 : ReceiverStreams)
    (env : StopEnv) (h : r.Stop s env = .returns r1 s1 none) :
    r1.closed = true ∧
    (∀ env2, r1.Stop s1 env2 = .returns r1 s1 (some .receiverAlreadyClosed)) ∧
    (∀ envs, stopCalls r1 s1 envs =
      some (r1, s1, envs.map (fun _ => some .receiverAlreadyClosed))) := by
  have hclosed : r1.closed = true := by
    unfold RTCRtpReceiver.Stop at h
    by_cases hc : r.closed = true
    · rw [if_pos hc] at h
      simp at h
    · rw [if_neg hc] at h
      cases h1 : s.rtcpReadStream with
      | none => rw [h1] at h; cases h
      | some rtcpStream =>
        rw [h1] at h
        simp only at h
        cases h2 : env.rtcpCloseErr with
        | some e => rw [h2] at h; simp at h
        | none =>
          rw [h2] at h
          simp only at h
          cases h3 : s.rtpReadStream with
          | none => rw [h3] at h; cases h
          | some rtpStream =>
            rw [h3] at h
            simp only at h
            cases h4 : env.rtpCloseErr with
            | some e => rw [h4] at h; simp at h
            | none =>
              rw [h4] at h
              simp only at h
              by_cases h5 : (env.rtcpOutDone && env.rtpOutDone) = true
              · rw [if_pos h5] at h
                injection h with hr _ _
                rw [← hr]
              · rw [if_neg h5] at h
                cases h
  have hstep : ∀ env2, r1.Stop s1 env2 = .returns r1 s1 (some .receiverAlreadyClosed) := by
    intro env2
    unfold RTCRtpReceiver.Stop
    rw [if_pos hclosed]
  refine ⟨hclosed, hstep, ?_⟩
  intro envs
  induction envs with
  | nil => rfl
  | cons env2 rest ih =>
    rw [stopCalls, hstep env2]
    simp only
    rw [ih]
    rfl

/-- C21 witness: a started receiver is stopped; the second `Stop` returns the
already-closed error and both streams still count one `Close` call. -/
theorem receiverStop_after_success_witness :
    RTCRtpReceiver.Stop ⟨RTCRtpCodecTypeVideo, none, true⟩
        ⟨some ⟨1⟩, some ⟨1⟩⟩ exampleStopEnv =
      .returns ⟨RTCRtpCodecTypeVideo, none, true⟩ ⟨some ⟨1⟩, some ⟨1⟩⟩
        (some .receiverAlreadyClosed) :=
  (receiverStop_after_success ⟨RTCRtpCodecTypeVideo, none, false⟩
    ⟨RTCRtpCodecTypeVideo, none, true⟩ exampleStreams ⟨some ⟨1⟩, some ⟨1⟩⟩ exampleStopEnv
    rfl).2.1 exampleStopEnv

theorem transceiverStop_attempts_engines (t t2 : RTCRtpTransceiver) (ch ch2 : TrackChannels)
    (s s2 : ReceiverStreams) (env : StopEnv) (err : Option Err)
    (h : t.Stop ch s env = .returns t2 ch2 s2 err) :
    (∀ sender, t.Sender = some sender → sender.Stop ch = .returns ch2) ∧
    (t.Sender = none → ch2 = ch) ∧
    (∀ receiver, t.Receiver = some receiver →
      ∃ r2, receiver.Stop s env = .returns r2 s2 err ∧ t2 = { t with Receiver := some r2 }) ∧
    (t.Receiver = none → err = none ∧ s2 = s ∧ t2 = t) := by
  unfold RTCRtpTransceiver.Stop at h
  simp only at h
  cases hs : t.Sender with
  | none =>
    rw [hs] at h
    simp only at h
    cases hr : t.Receiver with
    | none =>
      rw [hr] at h
      simp only [TransceiverStopOutcome.returns.injEq] at h
      obtain ⟨h1, h2, h3, h4⟩ := h
      exact ⟨fun _ hx => (by cases hx), fun _ => h2.symm, fun _ hx => (by cases hx),
        fun _ => ⟨h4.symm, h3.symm, h1.symm⟩⟩
    | some receiver =>
      rw [hr] at h
      simp only at h
      cases hrs : receiver.Stop s env with
      | panics => rw [hrs] at h; cases h
      | blocks => rw [hrs] at h; cases h
      | returns r2 s3 err3 =>
        rw [hrs] at h
        simp only [TransceiverStopOutcome.returns.injEq] at h
        obtain ⟨h1, h2, h3, h4⟩ := h
        refine ⟨fun _ hx => (by cases hx), fun _ => h2.symm, ?_, fun hx => (by cases hx)⟩
        intro rc hrc
        injection hrc with hrc
        subst hrc
        exact ⟨r2, by rw [← h3, ← h4]; exact hrs, h1.symm⟩
  | some sender =>
    rw [hs] at h
    simp only at h
    cases hss : sender.Stop ch with
    | panics => rw [hss] at h; cases h
    | returns ch1 =>
      rw [hss] at h
      simp only at h
      cases hr : t.Receiver with
      | none =>
        rw [hr] at h
        simp only [TransceiverStopOutcome.returns.injEq] at h
        obtain ⟨h1, h2, h3, h4⟩ := h
        refine ⟨?_, fun hx => (by cases hx), fun _ hx => (by cases hx),
          fun _ => ⟨h4.symm, h3.symm, h1.symm⟩⟩
        intro sd hsd
        injection hsd with hsd
        subst hsd
        rw [hss, h2]
      | some receiver =>
        rw [hr] at h
        simp only at h
        cases hrs : receiver.Stop s env with
        | panics => rw [hrs] at h; cases h
        | blocks => rw [hrs] at h; cases h
        | returns r2 s3 err3 =>
          rw [hrs] at h
          simp only [TransceiverStopOutcome.returns.injEq] at h
          obtain ⟨h1, h2, h3, h4⟩ := h
          refine ⟨?_, fun hx => (by cases hx), ?_, fun hx => (by cases hx)⟩
          · intro sd hsd
            injection hsd with hsd
            subst hsd
            rw [hss, h2]
          · intro rc hrc
            injection hrc with hrc
            subst hrc
            exact ⟨r2, by rw [← h3, ← h4]; exact hrs, h1.symm⟩

/-- C22 at the failing inputs: on a transceiver with neither engine, `Stop`
returns nil and changes nothing (the `stopped` flag stays false), so a further
`Stop` returns nil again; on a transceiver with a sender only, the first
`Stop` returns nil and the further `Stop` panics on closing the closed
channel. -/
theorem transceiverStop_not_rejected :
    exampleBareTransceiver.Stop ⟨false, false⟩ exampleStreams exampleStopEnv =
      .returns exampleBareTransceiver ⟨false, false⟩ exampleStreams none ∧
    exampleBareTransceiver.stopped = false ∧
    (exampleTransceiver .Sendonly).Stop ⟨false, false⟩ exampleStreams exampleStopEnv =
      .returns (exampleTransceiver .Sendonly) ⟨false, true⟩ exampleStreams none ∧
    (exampleTransceiver .Sendonly).Stop ⟨false, true⟩ exampleStreams exampleStopEnv =
      .panics := by
  refine ⟨rfl, rfl, rfl, rfl⟩

/-! ## Receive loops -/

/-- The invariant of a receive loop against the units unmarshalled so far: the
queue holds a subsequence of them, at most 15, and the queue is closed and the
completion signal fired exactly when the loop has stopped. -/
theorem recvLoopRTPStep_invariant {α : Type} (st : LoopState α) (units : List α)
    (ev : LoopEvent α)
    (h : st.out.Sublist units ∧ st.out.length ≤ 15 ∧ st.outClosed = !st.running ∧
      st.done = !st.running) :
    (recvLoopRTPStep st ev).out.Sublist (units ++ unitsOf [ev]) ∧
      (recvLoopRTPStep st ev).out.length ≤ 15 ∧
      (recvLoopRTPStep st ev).outClosed = !(recvLoopRTPStep st ev).running ∧
      (recvLoopRTPStep st ev).done = !(recvLoopRTPStep st ev).running := by
  obtain ⟨h1, h2, h3, h4⟩ := h
  cases ev with
  | consumerTakes =>
    refine ⟨?_, ?_, h3, h4⟩
    · show (st.out.drop 1).Sublist (units ++ [])
      rw [List.append_nil]
      exact (List.drop_sublist 1 st.out).trans h1
    · show (st.out.drop 1).length ≤ 15
      exact le_trans (List.drop_sublist 1 st.out).length_le h2
  | readError =>
    unfold recvLoopRTPStep
    simp only
    by_cases hr : st.running = true
    · rw [if_pos hr]
      exact ⟨by simpa [unitsOf] using h1, h2, rfl, rfl⟩
    · rw [if_neg hr]
      exact ⟨by simpa [unitsOf] using h1, h2, h3, h4⟩
  | malformed =>
    exact ⟨by simpa [unitsOf] using h1, h2, h3, h4⟩
  | unit u w p =>
    have hu : unitsOf [LoopEvent.unit u w p] = [u] := rfl
    rw [hu]
    have hsub : st.out.Sublist (units ++ [u]) :=
      h1.trans (List.sublist_append_left units [u])
    unfold recvLoopRTPStep
    simp only
    by_cases hr : st.running = true
    · rw [if_pos hr]
      by_cases hh : ((st.payloadTypeCh && w) && (!decide (st.out.length < 15) || p)) = true
      · rw [if_pos hh]
        exact ⟨hsub, h2, h3, h4⟩
      · rw [if_neg hh]
        by_cases hl : st.out.length < 15
        · rw [if_pos hl]
          refine ⟨h1.append (List.Sublist.refl [u]), ?_, h3, h4⟩
          simp only [List.length_append, List.length_singleton]
          omega
        · rw [if_neg hl]
          exact ⟨hsub, h2, h3, h4⟩
    · rw [if_neg hr]
      exact ⟨hsub, h2, h3, h4⟩

theorem recvLoopRTCPStep_invariant {α : Type} (st : LoopState α) (units : List α)
    (ev : LoopEvent α)
    (h : st.out.Sublist units ∧ st.out.length ≤ 15 ∧ st.outClosed = !st.running ∧
      st.done = !st.running) :
    (recvLoopRTCPStep st ev).out.Sublist (units ++ unitsOf [ev]) ∧
      (recvLoopRTCPStep st ev).out.length ≤ 15 ∧
      (recvLoopRTCPStep st ev).outClosed = !(recvLoopRTCPStep st ev).running ∧
      (recvLoopRTCPStep st ev).done = !(recvLoopRTCPStep st ev).running := by
  obtain ⟨h1, h2, h3, h4⟩ := h
  cases ev with
  | consumerTakes =>
    refine ⟨?_, ?_, h3, h4⟩
    · show (st.out.drop 1).Sublist (units ++ [])
      rw [List.append_nil]
      exact (List.drop_sublist 1 st.out).trans h1
    · show (st.out.drop 1).length ≤ 15
      exact le_trans (List.drop_sublist 1 st.out).length_le h2
  | readError =>
    unfold recvLoopRTCPStep
    simp only
    by_cases hr : st.running = true
    · rw [if_pos hr]
      exact ⟨by simpa [unitsOf] using h1, h2, rfl, rfl⟩
    · rw [if_neg hr]
      exact ⟨by simpa [unitsOf] using h1, h2, h3, h4⟩
  | malformed =>
    exact ⟨by simpa [unitsOf] using h1, h2, h3, h4⟩
  | unit u w p =>
    have hu : unitsOf [LoopEvent.unit u w p] = [u] := rfl
    rw [hu]
    have hsub : st.out.Sublist (units ++ [u]) :=
      h1.trans (List.sublist_append_left units [u])
    unfold recvLoopRTCPStep
    simp only
    by_cases hr : st.running = true
    · rw [if_pos hr]
      by_cases hl : st.out.length < 15
      · rw [if_pos hl]
        refine ⟨h1.append (List.Sublist.refl [u]), ?_, h3, h4⟩
        simp only [List.length_append, List.length_singleton]
        omega
      · rw [if_neg hl]
        exact ⟨hsub, h2, h3, h4⟩
    · rw [if_neg hr]
      exact ⟨hsub, h2, h3, h4⟩

theorem unitsOf_append {α : Type} (evs1 evs2 : List (LoopEvent α)) :
    unitsOf (evs1 ++ evs2) = unitsOf evs1 ++ unitsOf evs2 := by
  unfold unitsOf
  rw [List.filterMap_append]

theorem recvLoop_run_invariant {α : Type} (step : LoopState α → LoopEvent α → LoopState α)
    (start : LoopState α)
    (hstart : start.out = [] ∧ start.outClosed = false ∧ start.done = false ∧
      start.running = true)
    (hstep : ∀ st units ev,
      (st.out.Sublist units ∧ st.out.length ≤ 15 ∧ st.outClosed = !st.running ∧
        st.done = !st.running) →
      ((step st ev).out.Sublist (units ++ unitsOf [ev]) ∧ (step st ev).out.length ≤ 15 ∧
        (step st ev).outClosed = !(step st ev).running ∧
        (step st ev).done = !(step st ev).running))
    (evs : List (LoopEvent α)) :
    (evs.foldl step start).out.Sublist (unitsOf evs) ∧ (evs.foldl step start).out.length ≤ 15 ∧
      (evs.foldl step start).outClosed = !(evs.foldl step start).running ∧
      (evs.foldl step start).done = !(evs.foldl step start).running := by
  induction evs using List.reverseRecOn with
  | nil =>
    obtain ⟨h1, h2, h3, h4⟩ := hstart
    simp [h1, h2, h3, h4, unitsOf]
  | append_singleton evs2 ev ih =>
    rw [List.foldl_append, unitsOf_append]
    exact hstep _ _ ev ih

/-- C23: in both receive loops a unit that arrives while the queue holds 15
units is dropped with the queue unchanged and the loop still running; a unit
that fails to unmarshal changes nothing; a running loop stops exactly on a
failed read, and then closes its queue and fires its completion signal; and
after every run of events the queue holds a subsequence, in arrival order, of
the unmarshalled units, at most 15 of them. -/
theorem recvLoop_overflow_and_order {α : Type} :
    (∀ (st : LoopState α) (u : α) (w p : Bool), st.running = true → st.out.length = 15 →
      (recvLoopRTPStep st (.unit u w p)).out = st.out ∧
      (recvLoopRTPStep st (.unit u w p)).running = true ∧
      (recvLoopRTPStep st (.unit u w p)).outClosed = st.outClosed ∧
      (recvLoopRTPStep st (.unit u w p)).done = st.done ∧
      recvLoopRTCPStep st (.unit u w p) = st) ∧
    (∀ st : LoopState α,
      recvLoopRTPStep st .malformed = st ∧ recvLoopRTCPStep st .malformed = st) ∧
    (∀ (st : LoopState α) (ev : LoopEvent α), st.running = true →
      ((recvLoopRTPStep st ev).running = false ↔ ev = .readError) ∧
      ((recvLoopRTCPStep st ev).running = false ↔ ev = .readError)) ∧
    (∀ st : LoopState α, st.running = true →
      recvLoopRTPStep st .readError =
        { st with running := false, outClosed := true, done := true } ∧
      recvLoopRTCPStep st .readError =
        { st with running := false, outClosed := true, done := true }) ∧
    (∀ evs : List (LoopEvent α),
      ((evs.foldl recvLoopRTPStep (rtpLoopStart α)).out.Sublist (unitsOf evs) ∧
        (evs.foldl recvLoopRTPStep (rtpLoopStart α)).out.length ≤ 15 ∧
        (evs.foldl recvLoopRTPStep (rtpLoopStart α)).outClosed =
          !(evs.foldl recvLoopRTPStep (rtpLoopStart α)).running ∧
        (evs.foldl recvLoopRTPStep (rtpLoopStart α)).done =
          !(evs.foldl recvLoopRTPStep (rtpLoopStart α)).running) ∧
      ((evs.foldl recvLoopRTCPStep (rtcpLoopStart α)).out.Sublist (unitsOf evs) ∧
        (evs.foldl recvLoopRTCPStep (rtcpLoopStart α)).out.length ≤ 15 ∧
        (evs.foldl recvLoopRTCPStep (rtcpLoopStart α)).outClosed =
          !(evs.foldl recvLoopRTCPStep (rtcpLoopStart α)).running ∧
        (evs.foldl recvLoopRTCPStep (rtcpLoopStart α)).done =
          !(evs.foldl recvLoopRTCPStep (rtcpLoopStart α)).running)) := by
  refine ⟨?_, fun st => ⟨rfl, rfl⟩, ?_, ?_, ?_⟩
  · intro st u w p hr hl
    have hnl : ¬ st.out.length < 15 := by omega
    unfold recvLoopRTPStep recvLoopRTCPStep
    simp only [hr, if_true, hnl, if_false]
    split <;> simp [hr]
  · intro st ev hr
    cases ev with
    | consumerTakes =>
      constructor <;> simp [recvLoopRTPStep, recvLoopRTCPStep, hr]
    | readError =>
      constructor <;> simp [recvLoopRTPStep, recvLoopRTCPStep, hr]
    | malformed =>
      constructor <;> simp [recvLoopRTPStep, recvLoopRTCPStep, hr]
    | unit u w p =>
      constructor
      · unfold recvLoopRTPStep
        simp only [hr, if_true]
        split
        · simp [hr]
        · split <;> simp [hr]
      · unfold recvLoopRTCPStep
        simp only [hr, if_true]
        split <;> simp [hr]
  · intro st hr
    constructor <;> simp [recvLoopRTPStep, recvLoopRTCPStep, hr]
  · intro evs
    exact ⟨recvLoop_run_invariant recvLoopRTPStep (rtpLoopStart α) ⟨rfl, rfl, rfl, rfl⟩
        recvLoopRTPStep_invariant evs,
      recvLoop_run_invariant recvLoopRTCPStep (rtcpLoopStart α) ⟨rfl, rfl, rfl, rfl⟩
        recvLoopRTCPStep_invariant evs⟩

/-- C23 witness: twenty units flood each loop while nothing is consumed; the
queue holds the first fifteen, the loop is still running and the queue open;
the failed read that follows stops the loop, closes the queue and fires the
completion signal. -/
theorem recvLoop_flood_witness :
    ((floodEvents 20).foldl recvLoopRTPStep (rtpLoopStart Nat)).out = List.range 15 ∧
    ((floodEvents 20).foldl recvLoopRTPStep (rtpLoopStart Nat)).running = true ∧
    ((floodEvents 20).foldl recvLoopRTCPStep (rtcpLoopStart Nat)).out = List.range 15 ∧
    ((floodEvents 20).foldl recvLoopRTCPStep (rtcpLoopStart Nat)).running = true ∧
    ((floodEvents 20).foldl recvLoopRTCPStep (rtcpLoopStart Nat)).outClosed = false ∧
    ((floodEvents 20 ++ [LoopEvent.readError]).foldl recvLoopRTCPStep (rtcpLoopStart Nat)) =
      { out := List.range 15, outClosed := true, done := true, running := false,
        payloadTypeCh := false } := by
  refine ⟨by decide, by decide, by decide, by decide, by decide, by decide⟩

end Webrtc
